import Mathlib

/-!
Verification of the AI response reconciliation pipeline of `memo_ai`
(`api/ai.py`, `api/models.py`, `api/llm_client.py`), via a shallow
embedding of the Python code into Lean.

JSON values are modelled by the inductive `JVal`; Python dicts are
association lists that keep insertion order (as CPython dicts do) and,
for dicts produced by `json.loads` or by the code itself, have unique
keys.  Numbers are modelled by `PyNum`, which keeps Python's runtime
distinction between arbitrary-precision `int` and `float` (finite,
infinite or NaN): `json.loads` yields an `int` for an integer literal
and a `float` otherwise, and `float()` of an int beyond the double
range raises `OverflowError` — an error `validate_and_fix_json` does
not catch.  Operations that can raise in Python (subscription on a
non-dict, `.items()` or `.get` on a non-dict, `float` of a container,
...) return `Except PyErr`.
-/

/-- Python number values as they occur in this pipeline: an
arbitrary-precision `int`, or a `float` that is finite, infinite or
NaN.  A finite float is modelled as the exact decimal
`mant / 10 ^ exp` (kept with no trailing zeros): the rounding of a
decimal literal to the nearest IEEE double is not modelled — no
property proved here depends on it — but the overflow and underflow
boundaries of the double range are, since they decide which values
read as `inf` or `0.0` and which int-to-float casts raise
`OverflowError`. -/
inductive PyNum where
  | int (m : Int) : PyNum
  | float (mant : Int) (exp : Nat) : PyNum
  | inf (neg : Bool) : PyNum
  | nan : PyNum
deriving Repr, DecidableEq

/-- The first magnitude that rounds beyond the largest double, the
309-digit value of `2 ^ 1024 - 2 ^ 970` (written out so that it
evaluates as a numeral): `float()` of an int at or above it raises
`OverflowError`, and a decimal literal at or above it reads as
infinity. -/
def FLOAT_OVERFLOW_BOUND : Nat := 179769313486231580793728971405303415079934132710037826936173778980444968292764750946649017977587207096330286416692887910946555547851940402630657488671505820681908902000708383676273854845817711531764475730270069855571366959622842914819860834936475292719074168444365510704342711559699508093042880177904174497792

/-- The reciprocal of half the smallest subnormal double, the value of
`2 ^ 1075` (written out so that it evaluates as a numeral): a decimal
below `1 / FLOAT_UNDERFLOW_SCALE` in magnitude reads as `0.0`. -/
def FLOAT_UNDERFLOW_SCALE : Nat := 404804506614621236704990693437834614099113299528284236713802716054860679135990693783920767402874248990374155728633623822779617474771586953734026799881477019843034848553132722728933815484186432682479535356945490137124014966849385397236206711298319112681620113024717539104666829230461005064372655017292012526615415482186989568

def normFloatAux : Int → Nat → (Int × Nat)
  | m, 0 => (m, 0)
  | m, e + 1 => if m % 10 == 0 then normFloatAux (m / 10) e else (m, e + 1)

/-- The finite-double reading of an exact decimal `m / 10 ^ e`:
overflow to infinity at `FLOAT_OVERFLOW_BOUND`, underflow to `0.0`
below half the smallest subnormal (`2 ^ (-1075)`), trailing-zero
canonicalization in between. -/
def pyFloatOfDec (m : Int) (e : Nat) : PyNum :=
  if FLOAT_OVERFLOW_BOUND * 10 ^ e ≤ m.natAbs then .inf (decide (m < 0))
  else if m.natAbs * FLOAT_UNDERFLOW_SCALE < 10 ^ e then .float 0 0
  else
    match normFloatAux m e with
    | (m1, e1) => .float m1 e1

def PyNum.zero : PyNum := .float 0 0

def PyNum.one : PyNum := .float 1 0

inductive JVal where
  | null : JVal
  | bool (b : Bool) : JVal
  | num (n : PyNum) : JVal
  | str (s : String) : JVal
  | arr (xs : List JVal) : JVal
  | obj (fields : List (String × JVal)) : JVal
deriving Repr

abbrev JObj := List (String × JVal)

mutual
def JVal.beq : JVal → JVal → Bool
  | .null, .null => true
  | .bool a, .bool b => a == b
  | .num a, .num b => a == b
  | .str a, .str b => a == b
  | .arr as, .arr bs => JVal.beqList as bs
  | .obj as, .obj bs => JVal.beqObj as bs
  | _, _ => false
def JVal.beqList : List JVal → List JVal → Bool
  | [], [] => true
  | a :: as, b :: bs => JVal.beq a b && JVal.beqList as bs
  | _, _ => false
def JVal.beqObj : List (String × JVal) → List (String × JVal) → Bool
  | [], [] => true
  | (k, v) :: as, (k', v') :: bs => k == k' && JVal.beq v v' && JVal.beqObj as bs
  | _, _ => false
end

mutual
theorem JVal.eq_of_beq : ∀ {a b : JVal}, JVal.beq a b = true → a = b
  | .null, .null, _ => rfl
  | .bool _, .bool _, h => by simp [JVal.beq] at h; rw [h]
  | .num _, .num _, h => by simp [JVal.beq] at h; rw [h]
  | .str _, .str _, h => by simp [JVal.beq] at h; rw [h]
  | .arr as, .arr bs, h => by
      rw [JVal.eqList_of_beqList (a := as) (b := bs) (by simpa [JVal.beq] using h)]
  | .obj as, .obj bs, h => by
      rw [JVal.eqObj_of_beqObj (a := as) (b := bs) (by simpa [JVal.beq] using h)]
  | .null, .bool _, h => by simp [JVal.beq] at h
  | .null, .num _, h => by simp [JVal.beq] at h
  | .null, .str _, h => by simp [JVal.beq] at h
  | .null, .arr _, h => by simp [JVal.beq] at h
  | .null, .obj _, h => by simp [JVal.beq] at h
  | .bool _, .null, h => by simp [JVal.beq] at h
  | .bool _, .num _, h => by simp [JVal.beq] at h
  | .bool _, .str _, h => by simp [JVal.beq] at h
  | .bool _, .arr _, h => by simp [JVal.beq] at h
  | .bool _, .obj _, h => by simp [JVal.beq] at h
  | .num _, .null, h => by simp [JVal.beq] at h
  | .num _, .bool _, h => by simp [JVal.beq] at h
  | .num _, .str _, h => by simp [JVal.beq] at h
  | .num _, .arr _, h => by simp [JVal.beq] at h
  | .num _, .obj _, h => by simp [JVal.beq] at h
  | .str _, .null, h => by simp [JVal.beq] at h
  | .str _, .bool _, h => by simp [JVal.beq] at h
  | .str _, .num _, h => by simp [JVal.beq] at h
  | .str _, .arr _, h => by simp [JVal.beq] at h
  | .str _, .obj _, h => by simp [JVal.beq] at h
  | .arr _, .null, h => by simp [JVal.beq] at h
  | .arr _, .bool _, h => by simp [JVal.beq] at h
  | .arr _, .num _, h => by simp [JVal.beq] at h
  | .arr _, .str _, h => by simp [JVal.beq] at h
  | .arr _, .obj _, h => by simp [JVal.beq] at h
  | .obj _, .null, h => by simp [JVal.beq] at h
  | .obj _, .bool _, h => by simp [JVal.beq] at h
  | .obj _, .num _, h => by simp [JVal.beq] at h
  | .obj _, .str _, h => by simp [JVal.beq] at h
  | .obj _, .arr _, h => by simp [JVal.beq] at h
theorem JVal.eqList_of_beqList : ∀ {a b : List JVal}, JVal.beqList a b = true → a = b
  | [], [], _ => rfl
  | x :: xs, y :: ys, h => by
      simp only [JVal.beqList, Bool.and_eq_true] at h
      rw [JVal.eq_of_beq h.1, JVal.eqList_of_beqList h.2]
  | [], _ :: _, h => by simp [JVal.beqList] at h
  | _ :: _, [], h => by simp [JVal.beqList] at h
theorem JVal.eqObj_of_beqObj : ∀ {a b : List (String × JVal)}, JVal.beqObj a b = true → a = b
  | [], [], _ => rfl
  | (_, _) :: _, (_, _) :: _, h => by
      simp only [JVal.beqObj, Bool.and_eq_true, beq_iff_eq] at h
      rw [h.1.1, JVal.eq_of_beq h.1.2, JVal.eqObj_of_beqObj h.2]
  | [], _ :: _, h => by simp [JVal.beqObj] at h
  | _ :: _, [], h => by simp [JVal.beqObj] at h
end

mutual
theorem JVal.beq_refl : ∀ a : JVal, JVal.beq a a = true
  | .null => rfl
  | .bool _ => by simp [JVal.beq]
  | .num _ => by simp [JVal.beq]
  | .str _ => by simp [JVal.beq]
  | .arr as => by simp [JVal.beq, JVal.beqList_refl as]
  | .obj as => by simp [JVal.beq, JVal.beqObj_refl as]
theorem JVal.beqList_refl : ∀ a : List JVal, JVal.beqList a a = true
  | [] => rfl
  | x :: xs => by simp [JVal.beqList, JVal.beq_refl x, JVal.beqList_refl xs]
theorem JVal.beqObj_refl : ∀ a : List (String × JVal), JVal.beqObj a a = true
  | [] => rfl
  | (_, v) :: xs => by simp [JVal.beqObj, JVal.beq_refl v, JVal.beqObj_refl xs]
end

instance : DecidableEq JVal := fun a b =>
  if h : JVal.beq a b = true then isTrue (JVal.eq_of_beq h)
  else isFalse (fun hh => h (hh ▸ JVal.beq_refl a))

inductive PyErr where
  | attributeError : PyErr
  | typeError : PyErr
  | keyError : PyErr
  | valueError : PyErr
  | overflowError : PyErr
deriving Repr, DecidableEq

instance (ε α : Type) [DecidableEq ε] [DecidableEq α] : DecidableEq (Except ε α) := fun a b =>
  match a, b with
  | .ok x, .ok y =>
    if h : x = y then isTrue (by rw [h])
    else isFalse (fun hh => h (Except.ok.injEq .. ▸ hh))
  | .error x, .error y =>
    if h : x = y then isTrue (by rw [h])
    else isFalse (fun hh => h (Except.error.injEq .. ▸ hh))
  | .ok _, .error _ => isFalse (fun hh => Except.noConfusion hh)
  | .error _, .ok _ => isFalse (fun hh => Except.noConfusion hh)

/-- Lookup in an insertion-ordered dict. -/
def jget (o : JObj) (k : String) : Option JVal :=
  match o with
  | [] => none
  | (k', v) :: rest => if k' = k then some v else jget rest k

/-- Python `d[k] = v`: update in place if the key exists, else append. -/
def jset (o : JObj) (k : String) (v : JVal) : JObj :=
  match o with
  | [] => [(k, v)]
  | (k', v') :: rest => if k' = k then (k', v) :: rest else (k', v') :: jset rest k v

/-- Python `del d[k]` (removes the key's binding). -/
def jdel (o : JObj) (k : String) : JObj :=
  match o with
  | [] => []
  | (k1, v1) :: rest => if k1 = k then jdel rest k else (k1, v1) :: jdel rest k

/-- Python truthiness of a JSON value (`nan` and the infinities are
truthy). -/
def truthy : JVal → Bool
  | .null => false
  | .bool b => b
  | .num (.int m) => decide (m ≠ 0)
  | .num (.float m _) => decide (m ≠ 0)
  | .num (.inf _) => true
  | .num .nan => true
  | .str s => decide (s ≠ "")
  | .arr xs => decide (xs ≠ [])
  | .obj fs => decide (fs ≠ [])

/- Python string helpers. -/

def isWsChar (c : Char) : Bool :=
  c == ' ' || c == '\t' || c == '\n' || c == '\r'

def skipWs : List Char → List Char
  | [] => []
  | c :: cs => if isWsChar c then skipWs cs else c :: cs

/-- Python `str.strip()` (whitespace on both ends). -/
def pyStrip (s : String) : String :=
  String.mk (((s.toList.dropWhile isWsChar).reverse.dropWhile isWsChar).reverse)

def pyFindCharAux (cs : List Char) (c : Char) (i : Nat) : Int :=
  match cs with
  | [] => -1
  | x :: rest => if x == c then Int.ofNat i else pyFindCharAux rest c (i + 1)

/-- Python `s.find(c)` for a single character. -/
def pyFindChar (s : String) (c : Char) : Int :=
  pyFindCharAux s.toList c 0

/-- Python `s.rfind(c)` for a single character. -/
def pyRFindChar (s : String) (c : Char) : Int :=
  let j := pyFindCharAux s.toList.reverse c 0
  if j = -1 then -1 else Int.ofNat (s.toList.length - 1 - j.toNat)

/-- Python `s[a:b]` for nonnegative bounds. -/
def pySlice (s : String) (a b : Nat) : String :=
  String.mk ((s.toList.drop a).take (b - a))

def listStarts : List Char → List Char → Bool
  | [], _ => true
  | _ :: _, [] => false
  | p :: ps, c :: cs => p == c && listStarts ps cs

def containsSubList (cs sub : List Char) : Bool :=
  listStarts sub cs ||
    match cs with
    | [] => false
    | _ :: rest => containsSubList rest sub

/-- Python `sub in s` (substring containment). -/
def containsSub (s sub : String) : Bool :=
  containsSubList s.toList sub.toList

/-- Python `s.startswith(pat)`. -/
def pyStarts (s pat : String) : Bool :=
  listStarts pat.toList s.toList

/-- Python `s.endswith(pat)`. -/
def pyEnds (s pat : String) : Bool :=
  listStarts pat.toList.reverse s.toList.reverse

/-- Python `s[n:]`. -/
def pyDropHead (s : String) (n : Nat) : String :=
  String.mk (s.toList.drop n)

/-- Python `s[:-n]`. -/
def pyDropTail (s : String) (n : Nat) : String :=
  String.mk (s.toList.take (s.toList.length - n))

/-- Python `s.lower()`. -/
def pyLower (s : String) : String :=
  String.mk (s.toList.map Char.toLower)

/-- Decimal digits of a natural number (fuel-structured so that it
reduces in the kernel). -/
def natDigitsAux : Nat → Nat → List Char
  | _, 0 => []
  | n, fuel + 1 =>
    if n < 10 then [Char.ofNat (48 + n)]
    else natDigitsAux (n / 10) fuel ++ [Char.ofNat (48 + n % 10)]

def natToStr (n : Nat) : String := String.mk (natDigitsAux n (n + 1))

def intStr (m : Int) : String :=
  (if m < 0 then "-" else "") ++ String.mk (natDigitsAux m.natAbs (m.natAbs + 1))

/-- Decimal rendering of a finite float (`"5.0"`, `"-2.5"`, `"0.25"`);
CPython's switch to scientific notation for very large or small
magnitudes is not modelled — no property proved here depends on the
rendering of such values. -/
def floatDecStr (m : Int) (e : Nat) : String :=
  let sign := if m < 0 then "-" else ""
  let ds := natDigitsAux m.natAbs (m.natAbs + 1)
  if e = 0 then sign ++ String.mk ds ++ ".0"
  else
    let ds := if ds.length < e + 1 then List.replicate (e + 1 - ds.length) '0' ++ ds else ds
    sign ++ String.mk (ds.take (ds.length - e)) ++ "." ++ String.mk (ds.drop (ds.length - e))

/-- Python `str()`/`repr()` of a number. -/
def pyNumStr : PyNum → String
  | .int m => intStr m
  | .float m e => floatDecStr m e
  | .inf false => "inf"
  | .inf true => "-inf"
  | .nan => "nan"

/-- `json.dumps` rendering of a number (`allow_nan` defaults to true:
the infinities and NaN serialize as the `Infinity`/`NaN` constants,
which `json.loads` accepts back). -/
def pyNumJson : PyNum → String
  | .int m => intStr m
  | .float m e => floatDecStr m e
  | .inf false => "Infinity"
  | .inf true => "-Infinity"
  | .nan => "NaN"

/- A model of Python's `json` module: parser (`json.loads`) and
serializer (`json.dumps`).  The parser is a recursive-descent parser
over the character list, with a fuel argument that makes the recursion
structural; the top-level entry point supplies ample fuel. -/

def takeDigits : List Char → (List Char × List Char)
  | [] => ([], [])
  | c :: rest =>
    if c.isDigit then
      let (ds, r) := takeDigits rest
      (c :: ds, r)
    else ([], c :: rest)

def digitsToNat (ds : List Char) : Nat :=
  ds.foldl (fun a c => a * 10 + (c.toNat - 48)) 0

/-- Parse a JSON exponent suffix (`e`/`E`, optional sign, digits);
returns the exponent as an integer and the remaining input. -/
def parseExpSuffix : List Char → Option (Int × List Char)
  | [] => some (0, [])
  | c :: r =>
    if c == 'e' || c == 'E' then
      let (eneg, r1) := match r with
        | '-' :: rr => (true, rr)
        | '+' :: rr => (false, rr)
        | _ => (false, r)
      match takeDigits r1 with
      | ([], _) => none
      | (es, rest) =>
        let e := Int.ofNat (digitsToNat es)
        some (if eneg then -e else e, rest)
    else some (0, c :: r)

/-- Parse a JSON number token (strict JSON grammar: no leading zeros,
a fraction must have digits, no underscores).  A literal with neither
fraction nor exponent is a Python `int` (arbitrary precision); any
other is a `float`, read through the double's range as CPython's
`float(str)` does (so an oversized literal like `1e999` reads as
infinity). -/
def parseJNum (cs : List Char) : Option (PyNum × List Char) :=
  let (neg, cs1) := match cs with
    | '-' :: r => (true, r)
    | _ => (false, cs)
  match takeDigits cs1 with
  | ([], _) => none
  | (ds, r1) =>
    if 1 < ds.length && ds.headD '0' == '0' then none
    else
      let isFloat := match r1 with
        | '.' :: _ => true
        | 'e' :: _ => true
        | 'E' :: _ => true
        | _ => false
      if !isFloat then
        let m : Int := Int.ofNat (digitsToNat ds)
        some (.int (if neg then -m else m), r1)
      else
        let fracRes : Option (List Char × List Char) :=
          match r1 with
          | '.' :: r =>
            match takeDigits r with
            | ([], _) => none
            | (fs, rr) => some (fs, rr)
          | _ => some ([], r1)
        match fracRes with
        | none => none
        | some (fs, r2) =>
          match parseExpSuffix r2 with
          | none => none
          | some (ex, r3) =>
            let rawMant : Int := Int.ofNat (digitsToNat (ds ++ fs))
            let m : Int := if neg then -rawMant else rawMant
            let fexp : Int := Int.ofNat fs.length - ex
            some ((if fexp ≤ 0 then pyFloatOfDec (m * Int.ofNat ((10 : Nat) ^ (-fexp).toNat)) 0
                   else pyFloatOfDec m fexp.toNat), r3)

def hexVal (c : Char) : Option Nat :=
  if '0' ≤ c && c ≤ '9' then some (c.toNat - 48)
  else if 'a' ≤ c && c ≤ 'f' then some (c.toNat - 87)
  else if 'A' ≤ c && c ≤ 'F' then some (c.toNat - 55)
  else none

def parse4Hex : List Char → Option (Nat × List Char)
  | a :: b :: c :: d :: rest =>
    match hexVal a, hexVal b, hexVal c, hexVal d with
    | some x, some y, some z, some w => some (((x * 16 + y) * 16 + z) * 16 + w, rest)
    | _, _, _, _ => none
  | _ => none

/-- One decoded `\uXXXX` escape of a JSON string (the input starts
right after the `\u`), with CPython's surrogate-pair combination: a
high surrogate directly followed by the `\uXXXX` of a low surrogate
yields the astral character.  CPython keeps a lone surrogate in the
resulting `str`; a Lean `Char` cannot hold one, so a lone surrogate is
modelled as U+FFFD. -/
def parseUEscape (cs : List Char) : Option (Char × List Char) :=
  match parse4Hex cs with
  | none => none
  | some (u, rest) =>
    if 0xD800 ≤ u ∧ u ≤ 0xDBFF then
      match rest with
      | '\\' :: 'u' :: rest2 =>
        match parse4Hex rest2 with
        | some (u2, rest3) =>
          if 0xDC00 ≤ u2 ∧ u2 ≤ 0xDFFF then
            some (Char.ofNat (0x10000 + (u - 0xD800) * 0x400 + (u2 - 0xDC00)), rest3)
          else some (Char.ofNat 0xFFFD, rest)
        | none => some (Char.ofNat 0xFFFD, rest)
      | _ => some (Char.ofNat 0xFFFD, rest)
    else if 0xDC00 ≤ u ∧ u ≤ 0xDFFF then some (Char.ofNat 0xFFFD, rest)
    else some (Char.ofNat u, rest)

/-- The string-body lexer of `json.loads` (CPython's default strict
mode): an unescaped control character (below U+0020) is rejected; the
eight short escapes and `\uXXXX` are decoded; any other backslash
escape is rejected.  The fuel, supplied by the callers as the remaining
input's length plus one, keeps the recursion structural. -/
def parseStrBody : Nat → List Char → List Char → Option (String × List Char)
  | 0, _, _ => none
  | _ + 1, [], _ => none
  | fuel + 1, c :: rest, acc =>
    if c == '"' then some (String.mk acc.reverse, rest)
    else if c == '\\' then
      match rest with
      | [] => none
      | 'u' :: rest2 =>
        match parseUEscape rest2 with
        | some (ch, rest3) => parseStrBody fuel rest3 (ch :: acc)
        | none => none
      | e :: rest2 =>
        if e == '"' then parseStrBody fuel rest2 ('"' :: acc)
        else if e == '\\' then parseStrBody fuel rest2 ('\\' :: acc)
        else if e == '/' then parseStrBody fuel rest2 ('/' :: acc)
        else if e == 'b' then parseStrBody fuel rest2 (Char.ofNat 8 :: acc)
        else if e == 'f' then parseStrBody fuel rest2 (Char.ofNat 12 :: acc)
        else if e == 'n' then parseStrBody fuel rest2 ('\n' :: acc)
        else if e == 't' then parseStrBody fuel rest2 ('\t' :: acc)
        else if e == 'r' then parseStrBody fuel rest2 ('\r' :: acc)
        else none
    else if c.toNat < 32 then none
    else parseStrBody fuel rest (c :: acc)

def matchLit : List Char → List Char → Option (List Char)
  | [], rest => some rest
  | l :: ls, c :: rest => if l == c then matchLit ls rest else none
  | _ :: _, [] => none

mutual
def parseJVal (fuel : Nat) (cs : List Char) : Option (JVal × List Char) :=
  match fuel with
  | 0 => none
  | fuel + 1 =>
    match skipWs cs with
    | [] => none
    | c :: rest =>
      if c == '{' then
        match skipWs rest with
        | '}' :: r2 => some (.obj [], r2)
        | r2 => parseJMembers fuel r2 []
      else if c == '[' then
        match skipWs rest with
        | ']' :: r2 => some (.arr [], r2)
        | r2 => parseJElems fuel r2 []
      else if c == '"' then
        match parseStrBody (rest.length + 1) rest [] with
        | some (s, r2) => some (.str s, r2)
        | none => none
      else if c == 't' then
        match matchLit ('r' :: 'u' :: 'e' :: []) rest with
        | some r2 => some (.bool true, r2)
        | none => none
      else if c == 'f' then
        match matchLit ('a' :: 'l' :: 's' :: 'e' :: []) rest with
        | some r2 => some (.bool false, r2)
        | none => none
      else if c == 'n' then
        match matchLit ('u' :: 'l' :: 'l' :: []) rest with
        | some r2 => some (.null, r2)
        | none => none
      else if c == 'N' then
        match matchLit ('a' :: 'N' :: []) rest with
        | some r2 => some (.num .nan, r2)
        | none => none
      else if c == 'I' then
        match matchLit ('n' :: 'f' :: 'i' :: 'n' :: 'i' :: 't' :: 'y' :: []) rest with
        | some r2 => some (.num (.inf false), r2)
        | none => none
      else if c == '-' && rest.headD ' ' == 'I' then
        match matchLit ('I' :: 'n' :: 'f' :: 'i' :: 'n' :: 'i' :: 't' :: 'y' :: []) rest with
        | some r2 => some (.num (.inf true), r2)
        | none => none
      else
        match parseJNum (c :: rest) with
        | some (q, r2) => some (.num q, r2)
        | none => none

def parseJMembers (fuel : Nat) (cs : List Char) (acc : JObj) : Option (JVal × List Char) :=
  match fuel with
  | 0 => none
  | fuel + 1 =>
    match skipWs cs with
    | '"' :: r1 =>
      match parseStrBody (r1.length + 1) r1 [] with
      | none => none
      | some (k, r2) =>
        match skipWs r2 with
        | ':' :: r3 =>
          match parseJVal fuel r3 with
          | none => none
          | some (v, r4) =>
            match skipWs r4 with
            | ',' :: r5 => parseJMembers fuel r5 (jset acc k v)
            | '}' :: r5 => some (.obj (jset acc k v), r5)
            | _ => none
        | _ => none
    | _ => none

def parseJElems (fuel : Nat) (cs : List Char) (acc : List JVal) : Option (JVal × List Char) :=
  match fuel with
  | 0 => none
  | fuel + 1 =>
    match parseJVal fuel cs with
    | none => none
    | some (v, r1) =>
      match skipWs r1 with
      | ',' :: r2 => parseJElems fuel r2 (acc ++ [v])
      | ']' :: r2 => some (.arr (acc ++ [v]), r2)
      | _ => none
end

/-- Python `json.loads` (returns `none` where CPython raises
`json.JSONDecodeError`). -/
def jsonParse (s : String) : Option JVal :=
  let cs := s.toList
  match parseJVal (2 * cs.length + 2) cs with
  | some (v, rest) => if (skipWs rest).isEmpty then some v else none
  | none => none

def squote : String := String.singleton '\''

mutual
/-- Python `str()` of a JSON value. -/
def pyStr : JVal → String
  | .null => "None"
  | .bool true => "True"
  | .bool false => "False"
  | .num q => pyNumStr q
  | .str s => s
  | .arr xs => "[" ++ pyReprList xs ++ "]"
  | .obj fs => "\x7b" ++ pyReprObj fs ++ "\x7d"
/-- Python `repr()` of a JSON value (string escaping inside `repr` is
not modelled; no property depends on it). -/
def pyRepr : JVal → String
  | .null => "None"
  | .bool true => "True"
  | .bool false => "False"
  | .num q => pyNumStr q
  | .str s => squote ++ s ++ squote
  | .arr xs => "[" ++ pyReprList xs ++ "]"
  | .obj fs => "\x7b" ++ pyReprObj fs ++ "\x7d"
def pyReprList : List JVal → String
  | [] => ""
  | [x] => pyRepr x
  | x :: xs => pyRepr x ++ ", " ++ pyReprList xs
def pyReprObj : List (String × JVal) → String
  | [] => ""
  | [(k, v)] => squote ++ k ++ squote ++ ": " ++ pyRepr v
  | (k, v) :: xs => squote ++ k ++ squote ++ ": " ++ pyRepr v ++ ", " ++ pyReprObj xs
end

def hexDigitChar (n : Nat) : Char :=
  if n < 10 then Char.ofNat (48 + n) else Char.ofNat (87 + n)

/-- `json.dumps` string escaping (`ensure_ascii=False` form): quote,
backslash and the control characters, the latter as short escapes or
`\u00XX`. -/
def escJsonChar (c : Char) : String :=
  if c == '"' then "\\\""
  else if c == '\\' then "\\\\"
  else if c == '\n' then "\\n"
  else if c == '\t' then "\\t"
  else if c == '\r' then "\\r"
  else if c.toNat == 8 then "\\b"
  else if c.toNat == 12 then "\\f"
  else if c.toNat < 32 then
    "\\u00" ++ String.mk (hexDigitChar (c.toNat / 16) :: hexDigitChar (c.toNat % 16) :: [])
  else String.singleton c

def escJson (s : String) : String :=
  String.join (s.toList.map escJsonChar)

mutual
/-- Python `json.dumps` (with `ensure_ascii` irrelevant here: the dump
is only ever fed back into `json.loads`). -/
def jsonDump : JVal → String
  | .null => "null"
  | .bool true => "true"
  | .bool false => "false"
  | .num q => pyNumJson q
  | .str s => "\"" ++ escJson s ++ "\""
  | .arr xs => "[" ++ jsonDumpList xs ++ "]"
  | .obj fs => "\x7b" ++ jsonDumpObj fs ++ "\x7d"
def jsonDumpList : List JVal → String
  | [] => ""
  | [x] => jsonDump x
  | x :: xs => jsonDump x ++ ", " ++ jsonDumpList xs
def jsonDumpObj : List (String × JVal) → String
  | [] => ""
  | [(k, v)] => "\"" ++ escJson k ++ "\": " ++ jsonDump v
  | (k, v) :: xs => "\"" ++ escJson k ++ "\": " ++ jsonDump v ++ ", " ++ jsonDumpObj xs
end

/-- Whitespace as `float(str)` strips it (the JSON set plus vertical
tab and form feed). -/
def pyWsChar (c : Char) : Bool :=
  isWsChar c || c.toNat == 11 || c.toNat == 12

def skipPyWs : List Char → List Char
  | [] => []
  | c :: cs => if pyWsChar c then skipPyWs cs else c :: cs

def takeDigitsUAux : List Char → List Char → Option (List Char × List Char)
  | [], acc => some (acc.reverse, [])
  | c :: rest, acc =>
    if c.isDigit then takeDigitsUAux rest (c :: acc)
    else if c == '_' then
      if acc.isEmpty then none
      else
        match rest with
        | c2 :: rest2 => if c2.isDigit then takeDigitsUAux rest2 (c2 :: acc) else none
        | [] => none
    else some (acc.reverse, c :: rest)

/-- A digit run in `float()`'s grammar: decimal digits with PEP 515
single underscores between digits (`1_0` is valid; `_1`, `1_` and
`1__0` are not — those make the whole conversion fail). -/
def takeDigitsU (cs : List Char) : Option (List Char × List Char) :=
  takeDigitsUAux cs []

/-- A case-normalized constant (`inf`, `infinity`, `nan`) followed by
nothing but whitespace. -/
def floatConst (low : List Char) (lit : List Char) : Bool :=
  listStarts lit low && (skipPyWs (low.drop lit.length)).isEmpty

/-- The exponent suffix of `float(str)` (`e`/`E`, optional sign, digits
with underscores). -/
def parseExpSuffixU : List Char → Option (Int × List Char)
  | [] => some (0, [])
  | c :: r =>
    if c == 'e' || c == 'E' then
      let (eneg, r1) := match r with
        | '-' :: rr => (true, rr)
        | '+' :: rr => (false, rr)
        | _ => (false, r)
      match takeDigitsU r1 with
      | none => none
      | some ([], _) => none
      | some (es, rest) =>
        let e := Int.ofNat (digitsToNat es)
        some (if eneg then -e else e, rest)
    else some (0, c :: r)

/-- Python `float(str)`: optional surrounding whitespace, optional
sign, then a case-insensitive `inf`/`infinity`/`nan` constant or
digits (with PEP 515 underscores) with optional fraction and exponent.
An oversized magnitude reads as infinity — `float(str)` never raises
`OverflowError`. -/
def pyFloatParse (s : String) : Option PyNum :=
  let cs := skipPyWs s.toList
  let (neg, cs1) := match cs with
    | '-' :: r => (true, r)
    | '+' :: r => (false, r)
    | _ => (false, cs)
  let low := cs1.map Char.toLower
  if floatConst low ('i' :: 'n' :: 'f' :: []) then some (.inf neg)
  else if floatConst low ('i' :: 'n' :: 'f' :: 'i' :: 'n' :: 'i' :: 't' :: 'y' :: []) then
    some (.inf neg)
  else if floatConst low ('n' :: 'a' :: 'n' :: []) then some .nan
  else
    let core : Option (List Char × List Char × List Char) :=
      match takeDigitsU cs1 with
      | none => none
      | some ([], r1) =>
        match r1 with
        | '.' :: r =>
          match takeDigitsU r with
          | none => none
          | some ([], _) => none
          | some (fs, rr) => some ([], fs, rr)
        | _ => none
      | some (ds, r1) =>
        match r1 with
        | '.' :: r =>
          match takeDigitsU r with
          | none => none
          | some (fs, rr) => some (ds, fs, rr)
        | _ => some (ds, [], r1)
    match core with
    | none => none
    | some (ds, fs, r2) =>
      match parseExpSuffixU r2 with
      | none => none
      | some (ex, r3) =>
        if (skipPyWs r3).isEmpty then
          let rawMant : Int := Int.ofNat (digitsToNat (ds ++ fs))
          let m : Int := if neg then -rawMant else rawMant
          let fexp : Int := Int.ofNat fs.length - ex
          some (if fexp ≤ 0 then pyFloatOfDec (m * Int.ofNat ((10 : Nat) ^ (-fexp).toNat)) 0
                else pyFloatOfDec m fexp.toNat)
        else none

/-- Python `float(v)` on a JSON value: floats (including the
infinities and NaN) pass through; an int at or beyond the double range
raises `OverflowError` — which `validate_and_fix_json`'s
`except (ValueError, TypeError)` does NOT catch; strings go through
`float(str)`'s grammar (`ValueError` on rejection); `None` and
containers raise `TypeError`. -/
def pyFloat : JVal → Except PyErr PyNum
  | .num (.int m) =>
    if FLOAT_OVERFLOW_BOUND ≤ m.natAbs then .error .overflowError
    else .ok (.float m 0)
  | .num q => .ok q
  | .bool true => .ok PyNum.one
  | .bool false => .ok PyNum.zero
  | .str s =>
    match pyFloatParse s with
    | some q => .ok q
    | none => .error .valueError
  | _ => .error .typeError

/-- Python `v[k]` with a string key. -/
def pySubscriptStr (v : JVal) (k : String) : Except PyErr JVal :=
  match v with
  | .obj o =>
    match jget o k with
    | some x => .ok x
    | none => .error .keyError
  | _ => .error .typeError

/-- Modelled from the spec: `extract_plain_text` is imported by `ai.py`
from `api.services` but is absent from the provided sources.  Per the
spec's few-shot rendering rule ("title/rich_text → joined plain text")
and the sibling `extract_property_value` in `api/services.py`, it joins
the `plain_text` of each entry of a rich-text array; total in this
model. -/
def extract_plain_text : JVal → String
  | .arr items =>
    String.join (items.map fun t =>
      match t with
      | .obj o =>
        match jget o ("plain_text") with
        | some (.str s) => s
        | _ => ""
      | _ => "")
  | _ => ""

/-- The `number` arm of the validation loop (`api/ai.py` lines
195-201): `try: validated[k] = float(v) except (ValueError, TypeError):
pass` — any other error, in particular the `OverflowError` of an
oversized int, propagates out of the loop. -/
def coerceNumCatch (r : Except PyErr PyNum) : Except PyErr (Option JVal) :=
  match r with
  | .ok q => .ok (some (.obj [("number", .num q)]))
  | .error err => if err = .valueError ∨ err = .typeError then .ok none else .error err

def coerceNumber (v : JVal) : Except PyErr (Option JVal) :=
  match v with
  | .null => .ok none
  | _ => coerceNumCatch (pyFloat v)

/-- One iteration body of the validation loop of `validate_and_fix_json`
(`api/ai.py` lines 156-221): the store-native value produced for one
key whose schema type is `t` (`.ok none` when the key is skipped), or
the error the iteration raises. -/
def coerceValue (t : JVal) (v : JVal) : Except PyErr (Option JVal) :=
  if t = .str ("select") then
    let v1 := match v with
      | .obj o => (jget o ("name")).getD .null
      | _ => v
    if truthy v1 then .ok (some (.obj [("select", .obj [("name", .str (pyStr v1))])]))
    else .ok none
  else if t = .str ("multi_select") then
    let vs := match v with
      | .arr xs => xs
      | _ => [v]
    let opts := vs.filterMap fun item =>
      let item1 := match item with
        | .obj o => (jget o ("name")).getD .null
        | _ => item
      if truthy item1 then some (JVal.obj [("name", .str (pyStr item1))]) else none
    .ok (some (.obj [("multi_select", .arr opts)]))
  else if t = .str ("status") then
    let v1 := match v with
      | .obj o => (jget o ("name")).getD .null
      | _ => v
    if truthy v1 then .ok (some (.obj [("status", .obj [("name", .str (pyStr v1))])]))
    else .ok none
  else if t = .str ("date") then
    let v1 := match v with
      | .obj o => (jget o ("start")).getD .null
      | _ => v
    if truthy v1 then .ok (some (.obj [("date", .obj [("start", .str (pyStr v1))])]))
    else .ok none
  else if t = .str ("checkbox") then
    .ok (some (.obj [("checkbox", .bool (truthy v))]))
  else if t = .str ("number") then
    coerceNumber v
  else if t = .str ("title") then
    let v1 := match v with
      | .arr xs => JVal.str (extract_plain_text (.arr xs))
      | _ => v
    .ok (some (.obj [("title", .arr [.obj [("text", .obj [("content", .str (pyStr v1))])]])]))
  else if t = .str ("rich_text") then
    let v1 := match v with
      | .arr xs => JVal.str (extract_plain_text (.arr xs))
      | _ => v
    .ok (some (.obj [("rich_text", .arr [.obj [("text", .obj [("content", .str (pyStr v1))])]])]))
  else .ok none

def coercePropsAux (schema : JObj) : List (String × JVal) → JObj → Except PyErr JObj
  | [], validated => .ok validated
  | (k, v) :: rest, validated =>
    match jget schema k with
    | none => coercePropsAux schema rest validated
    | some sv =>
      match pySubscriptStr sv ("type") with
      | .error e => .error e
      | .ok t =>
        match coerceValue t v with
        | .error e => .error e
        | .ok (some cv) => coercePropsAux schema rest (jset validated k cv)
        | .ok none => coercePropsAux schema rest validated

/-- The validation/cast loop of `validate_and_fix_json` over the items
of the parsed object. -/
def coerceProps (data schema : JObj) : Except PyErr JObj :=
  coercePropsAux schema data []

/-- Runs the cast loop on the parsed JSON value: a non-dict parse
result makes `data.items()` raise `AttributeError`. -/
def coerceData (d : JVal) (schema : JObj) : Except PyErr JObj :=
  match d with
  | .obj o => coerceProps o schema
  | _ => .error .attributeError

/-- The markdown-fence stripping stage of `validate_and_fix_json`
(`api/ai.py` lines 119-128). -/
def stripFences (s0 : String) : String :=
  let s := pyStrip s0
  let s := if pyStarts s ("```json") then pyDropHead s 7 else s
  let s := if pyStarts s ("```") then pyDropHead s 3 else s
  let s := if pyEnds s ("```") then pyDropTail s 3 else s
  pyStrip s

/-- `validate_and_fix_json(json_str, schema)` (`api/ai.py` lines
111-223).  Parse stage 1: fence-strip then `json.loads`; stage 2 on
`JSONDecodeError`: the substring from the first opening brace to the
last closing one.  Unrecoverable parses return the empty dict; the cast
loop then runs on the parsed value. -/
def validate_and_fix_json (s0 : String) (schema : JObj) : Except PyErr JObj :=
  let s := stripFences s0
  match jsonParse s with
  | some d => coerceData d schema
  | none =>
    let start := pyFindChar s '{'
    if start = -1 then .ok []
    else
      let stop := pyRFindChar s '}' + 1
      match jsonParse (pySlice s start.toNat stop.toNat) with
      | some d => coerceData d schema
      | none => .ok []

/-- The parse stages of `validate_and_fix_json` in isolation: the value
the cast loop receives, or `none` when every stage fails. -/
def vfjStagedParse (s0 : String) : Option JVal :=
  let s := stripFences s0
  match jsonParse s with
  | some d => some d
  | none =>
    let start := pyFindChar s '{'
    if start = -1 then none
    else jsonParse (pySlice s start.toNat (pyRFindChar s '}' + 1).toNat)

/- Fixed user-facing strings of `ai.py`. -/

def apologyMsg : String := "申し訳ありません。AIの応答生成中にエラーが発生しました。"

def apiKeyHint : String := "\n(APIキーが設定されていないか、正しくない可能性があります)"

def noValidRespMsg : String := "AIから有効な応答が得られませんでした。"

def parseFailMsg : String := "AIの応答を解析できませんでした。"

def organizeMsg : String := "内容を整理しました: "

def extractedMsg : String := "プロパティを抽出しました。"

def doneMsg : String := "（応答完了）"

/-- Python `d.get(k, dflt)` (raises `AttributeError` on a non-dict). -/
def pyGet (d : JVal) (k : String) (dflt : JVal) : Except PyErr JVal :=
  match d with
  | .obj o => .ok ((jget o k).getD dflt)
  | _ => .error .attributeError

/-- Python `k in d` (dict-key, substring or list membership;
`TypeError` on non-containers). -/
def pyContains (d : JVal) (k : String) : Except PyErr Bool :=
  match d with
  | .obj o => .ok (jget o k).isSome
  | .str s => .ok (containsSub s k)
  | .arr xs => .ok (xs.contains (.str k))
  | _ => .error .typeError

/-- Python `d[k] = v` (raises `TypeError` when `d` is not a dict). -/
def pySetItem (d : JVal) (k : String) (v : JVal) : Except PyErr JVal :=
  match d with
  | .obj o => .ok (.obj (jset o k v))
  | _ => .error .typeError

/-- Outcome of a successful `generate_json` call. -/
structure LlmOk where
  content : String
  usage : JVal
  cost : PyNum
  model : String
  thinking : JVal
deriving Repr, DecidableEq

def titleSpan (text : String) : JVal :=
  .obj [("title", .arr [.obj [("text", .obj [("content", .str text)])]])]

/-- The fallback loop of `analyze_text_with_ai` (`api/ai.py` lines
286-290): the first title-typed schema key gets the raw input text. -/
def analyzeFallbackProps (text : String) : JObj → Except PyErr JObj
  | [] => .ok []
  | (k, sv) :: rest =>
    match pySubscriptStr sv ("type") with
    | .error e => .error e
    | .ok t =>
      if t = .str ("title") then .ok [(k, titleSpan text)]
      else analyzeFallbackProps text rest

def pyErrStr : PyErr → String
  | .attributeError => "AttributeError"
  | .typeError => "TypeError"
  | .keyError => "KeyError"
  | .valueError => "ValueError"
  | .overflowError => "OverflowError"

/-- `analyze_text_with_ai` (`api/ai.py` lines 229-298) after model
selection and prompt construction: `llm` is the outcome of the awaited
`generate_json` call; the `except` block catches both its failure and
anything the validation step raises. -/
def analyze_text_with_ai (text : String) (schema : JObj) (selectedModel : String)
    (llm : Except String LlmOk) : Except PyErr JVal :=
  let attempt : Except String JVal :=
    match llm with
    | .error e => .error e
    | .ok r =>
      match validate_and_fix_json r.content schema with
      | .error pe => .error (pyErrStr pe)
      | .ok props =>
        .ok (.obj [("properties", .obj props), ("usage", r.usage),
                   ("cost", .num r.cost), ("model", .str r.model)])
  match attempt with
  | .ok res => .ok res
  | .error e =>
    match analyzeFallbackProps text schema with
    | .error pe => .error pe
    | .ok fb =>
      .ok (.obj [("properties", .obj fb), ("usage", .obj []), ("cost", .num PyNum.zero),
                 ("model", .str selectedModel), ("error", .str e)])

/-- Stage-2 recovery parse of the chat extractor (`api/ai.py` lines
514-523): the substring between the first opening and the last closing
brace, attempted only when both exist in the right order. -/
def chatBraceParse (s : String) : Option JVal :=
  let start := pyFindChar s '{'
  let stop := pyRFindChar s '}' + 1
  if start ≠ -1 ∧ stop > start then
    jsonParse (pySlice s start.toNat stop.toNat)
  else none

/-- The chat response parsing/recovery stages of
`chat_analyze_text_with_ai` (`api/ai.py` lines 488-536). -/
def chatParse (s : String) : Except PyErr JVal :=
  match jsonParse s with
  | some d0 =>
    let d := match d0 with
      | .str m => JVal.obj [("message", .str m)]
      | .arr xs =>
        match xs with
        | .obj o :: _ => JVal.obj o
        | _ => JVal.obj []
      | other => other
    .ok (if truthy d then d else .obj [("message", .str noValidRespMsg)])
  | none =>
    match chatBraceParse s with
    | some d => pySetItem d ("_json_recovered") (.bool true)
    | none =>
      match jsonParse ("\x7b" ++ pyStrip s ++ "\x7d") with
      | some d => pySetItem d ("_json_recovered") (.bool true)
      | none => .ok (.obj [("message", .str parseFailMsg), ("raw_response", .str s)])

/-- The body of the message-synthesis branch
(`api/ai.py` lines 542-556). -/
def synthesizeMessage (d : JVal) : Except PyErr JVal := do
  let hasT ← pyContains d ("Title")
  let hasC ← pyContains d ("Content")
  let hasP ← pyContains d ("properties")
  if hasT || hasC || hasP then
    let pv ← pyGet d ("properties") .null
    let pvOr := if truthy pv then pv else JVal.obj []
    let dflt ← pyGet pvOr ("Title") (.str "")
    let titleVal ← pyGet d ("Title") dflt
    let msg := if truthy titleVal then organizeMsg ++ pyStr titleVal else extractedMsg
    pySetItem d ("message") (.str msg)
  else
    pySetItem d ("message") (.str doneMsg)

/-- The message-guarantee step of the chat normalizer
(`api/ai.py` lines 539-556). -/
def guaranteeMessage (d : JVal) : Except PyErr JVal := do
  let mem ← pyContains d ("message")
  let needs ←
    if mem then do
      let mv ← pySubscriptStr d ("message")
      pure (!truthy mv)
    else
      pure true
  if needs then synthesizeMessage d else pure d

/-- The property-promotion step of the chat normalizer
(`api/ai.py` lines 559-571): top-level keys that match schema keys move
under a new `properties` key.  CPython iterates the promoted keys in
(unspecified) set order; they are modelled in data order. -/
def promoteProperties (d : JVal) (schema : JObj) : Except PyErr JVal := do
  let hasP ← pyContains d ("properties")
  if hasP then pure d
  else
    match d with
    | .obj o =>
      let propertyKeys := (o.map Prod.fst).filter (fun k => (jget schema k).isSome)
      if propertyKeys ≠ [] then
        let props : JObj := propertyKeys.map (fun k => (k, (jget o k).getD .null))
        let o1 := propertyKeys.foldl (fun acc k => jdel acc k) o
        pure (.obj (jset o1 ("properties") (.obj props)))
      else pure d
    | _ => .error .attributeError

/-- The coercion step of the chat normalizer (`api/ai.py` lines
574-577): a truthy `properties` value is serialized and passed through
`validate_and_fix_json`. -/
def chatCoerceStep (d : JVal) (schema : JObj) : Except PyErr JVal := do
  let hasP ← pyContains d ("properties")
  if hasP then
    let pv ← pySubscriptStr d ("properties")
    if truthy pv then
      match validate_and_fix_json (jsonDump pv) schema with
      | .error e => .error e
      | .ok props => pySetItem d ("properties") (.obj props)
    else pure d
  else pure d

def modelSelectionObj (requestedModel selectedModel : String) (fo : Bool) : JVal :=
  .obj [("requested", .str requestedModel), ("used", .str selectedModel),
        ("fallback_occurred", .bool fo)]

/-- The fallback result of `chat_analyze_text_with_ai` when
`generate_json` raises (`api/ai.py` lines 463-485). -/
def chatLlmErrorResult (errMsg selectedModel requestedModel : String) (fo : Bool) : JVal :=
  let userMsg := apologyMsg
  let userMsg := if containsSub errMsg ("API key") || containsSub (pyLower errMsg) ("auth")
                 then userMsg ++ apiKeyHint else userMsg
  .obj [("message", .str userMsg), ("raw_error", .str errMsg), ("properties", .null),
        ("usage", .obj []), ("cost", .num PyNum.zero), ("model", .str selectedModel),
        ("model_selection", modelSelectionObj requestedModel selectedModel fo)]

/-- `chat_analyze_text_with_ai` (`api/ai.py` lines 456-596) in
text/vision mode, after model selection and message construction: `llm`
is the outcome of the awaited `generate_json` call. -/
def chat_analyze_text_with_ai (schema : JObj) (llm : Except String LlmOk)
    (selectedModel requestedModel : String) (fallbackOccurred : Bool) : Except PyErr JVal :=
  match llm with
  | .error e => .ok (chatLlmErrorResult e selectedModel requestedModel fallbackOccurred)
  | .ok r => do
    let d ← chatParse r.content
    let d ← guaranteeMessage d
    let d ← promoteProperties d schema
    let d ← chatCoerceStep d schema
    let d ← pySetItem d ("usage") r.usage
    let d ← pySetItem d ("cost") (.num r.cost)
    let d ← pySetItem d ("model") (.str r.model)
    let d ← pySetItem d ("model_selection")
              (modelSelectionObj requestedModel selectedModel fallbackOccurred)
    if truthy r.thinking then pySetItem d ("thinking") r.thinking else pure d

/-- The ai.py-side fallback record `bool(model and model != selected_model)`
(`api/ai.py` line 395). -/
def chatFallbackOccurred (model : Option String) (selectedModel : String) : Bool :=
  match model with
  | none => false
  | some m => if m = "" then false else decide (m ≠ selectedModel)

/-- The few-shot value simplification of `construct_prompt`
(`api/ai.py` lines 74-89): one recent-example property value reduced to
the prompt's flat form.  The initial `"N/A"` survives for every type
the loop does not handle (`status`, `number`, `people`, ...). -/
def simplifyPropValue (v : JObj) : Except PyErr JVal := do
  let pt := (jget v ("type")).getD .null
  if pt = .str ("title") then
    pure (.str (extract_plain_text ((jget v ("title")).getD (.arr []))))
  else if pt = .str ("rich_text") then
    pure (.str (extract_plain_text ((jget v ("rich_text")).getD (.arr []))))
  else if pt = .str ("select") then
    let sel := (jget v ("select")).getD .null
    if truthy sel then pyGet sel ("name") .null else pure .null
  else if pt = .str ("multi_select") then
    match (jget v ("multi_select")).getD (.arr []) with
    | .arr xs =>
      let names ← xs.mapM (fun o => pyGet o ("name") .null)
      pure (.arr names)
    | _ => .error .typeError
  else if pt = .str ("date") then
    let dv := (jget v ("date")).getD .null
    if truthy dv then pyGet dv ("start") .null else pure .null
  else if pt = .str ("checkbox") then
    pure ((jget v ("checkbox")).getD .null)
  else
    pure (.str ("N/A"))

/-- Round trip of one stored property value: few-shot simplification,
then the `validate_and_fix_json` cast at schema type `t`. -/
def valueRoundTrip (t : String) (v : JObj) : Option JVal :=
  match simplifyPropValue v with
  | .ok sv =>
    match coerceValue (.str t) sv with
    | .ok r => r
    | .error _ => none
  | .error _ => none

/- Model registry and selection (`api/models.py`). -/

/-- One registry entry (`_build_model_registry`); only the fields the
selection logic reads are modelled. -/
structure MEntry where
  id : String
  name : String
  litellm_provider : String
  supports_vision : Bool
  supports_image_generation : Bool
  recommended : Bool
deriving Repr, DecidableEq

/-- The process environment the selector reads: the built registry,
`is_provider_available` from `api/config.py`, and the two configured
default models. -/
structure MEnv where
  registry : List MEntry
  avail : String → Bool
  defaultTextModel : String
  defaultMultimodalModel : String

def RECOMMENDED_MODELS : List String :=
  ["gemini/gemini-flash-latest", "gemini/gemini-pro-latest",
   "gemini/gemini-2.5-flash", "gemini/gemini-2.5-pro",
   "gpt-4o", "gpt-4o-mini", "gpt-4-turbo", "o1-mini", "o3-mini",
   "claude-3-5-sonnet-20241022", "claude-3-5-haiku-20241022",
   "claude-3-opus-20240229"]

/-- `get_model_metadata` (`api/models.py` lines 366-381). -/
def get_model_metadata (env : MEnv) (id : String) : Option MEntry :=
  env.registry.find? (fun m => m.id == id)

/-- `get_available_models` (`api/models.py` lines 306-342). -/
def get_available_models (env : MEnv) (recommendedOnly : Bool) : List MEntry :=
  env.registry.filter (fun m =>
    m.litellm_provider != "" && env.avail m.litellm_provider &&
      (!recommendedOnly ||
        (RECOMMENDED_MODELS.contains m.id || RECOMMENDED_MODELS.contains m.name
          || m.recommended)))

/-- `get_models_by_capability` (`api/models.py` lines 345-363) with a
boolean vision filter. -/
def get_models_by_capability (env : MEnv) (sv : Bool) : List MEntry :=
  (get_available_models env true).filter (fun m => m.supports_vision == sv)

/-- `get_image_generation_models` (`api/models.py` lines 571-575). -/
def get_image_generation_models (env : MEnv) : List MEntry :=
  (get_available_models env true).filter (fun m => m.supports_image_generation)

def FALLBACK_IMAGE_GEN_MODELS : List String :=
  ["gemini/gemini-2.5-flash-image", "openai/dall-e-3", "openai/dall-e-2"]

def noModelErrMsg : String := "利用可能なAIモデルがありません。APIキーの設定を確認してください。"

def noVisionErrMsg : String := "画像認識に対応したモデルが利用できません。APIキーの設定を確認してください。"

def noImgGenErrMsg : String := "画像生成に対応したモデルが利用できません。APIキーの設定を確認してください。"

/-- The automatic part of `select_model_for_input`
(`api/models.py` lines 424-527); a `.error` is the `RuntimeError` the
function raises when nothing is available. -/
def select_model_auto (env : MEnv) (has_image image_generation : Bool) : Except String String :=
  if image_generation then
    let igm := get_image_generation_models env
    match igm with
    | [] => .error noImgGenErrMsg
    | m0 :: _ =>
      let ids := igm.map (fun m => m.id)
      match FALLBACK_IMAGE_GEN_MODELS.find? (fun f => ids.contains f) with
      | some f => .ok f
      | none => .ok m0.id
  else if has_image then
    let vms := get_models_by_capability env true
    match vms with
    | [] => .error noVisionErrMsg
    | m0 :: _ =>
      let ids := vms.map (fun m => m.id)
      match ([env.defaultMultimodalModel, "gemini/gemini-2.5-flash",
              "openai/gpt-4o-mini"]).find? (fun f => ids.contains f) with
      | some f => .ok f
      | none => .ok m0.id
  else
    let availIds := (get_available_models env true).map (fun m => m.id)
    match ([env.defaultTextModel, "gemini/gemini-2.5-flash",
            "openai/gpt-4o-mini"]).find? (fun f => availIds.contains f) with
    | some f => .ok f
    | none =>
      match get_models_by_capability env false with
      | m0 :: _ => .ok m0.id
      | [] =>
        match availIds with
        | i :: _ => .ok i
        | [] => .error noModelErrMsg

/-- `select_model_for_input` (`api/models.py` lines 384-527). -/
def select_model_for_input (env : MEnv) (has_image : Bool)
    (user_selection : Option String) (image_generation : Bool) : Except String String :=
  match user_selection with
  | some c =>
    if c ≠ "" then
      match get_model_metadata env c with
      | some meta =>
        if env.avail meta.litellm_provider then .ok c
        else select_model_auto env has_image image_generation
      | none => select_model_auto env has_image image_generation
    else select_model_auto env has_image image_generation
  | none => select_model_auto env has_image image_generation

/- Retry loop of `generate_json` (`api/llm_client.py` lines 107-243). -/

def LITELLM_MAX_RETRIES : Nat := 1

/-- The loop `for attempt in range(retries + 1)` of `generate_json`,
with `retries - attempt` as the structural fuel: `calls k` is the
outcome of the `k`-th external LLM call; returns the overall outcome,
the list of back-off delays slept between attempts (in seconds,
`asyncio.sleep(2 * (attempt + 1))`), and the number of calls made. -/
def genGoAux (calls : Nat → Except String LlmOk) (attempt : Nat) :
    Nat → Except String LlmOk × List Nat × Nat
  | 0 =>
    match calls attempt with
    | .ok r => (.ok r, [], 1)
    | .error e => (.error ("AI generation failed: " ++ e), [], 1)
  | remaining + 1 =>
    match calls attempt with
    | .ok r => (.ok r, [], 1)
    | .error _ =>
      let (res, ds, n) := genGoAux calls (attempt + 1) remaining
      (res, 2 * (attempt + 1) :: ds, n + 1)

/-- `generate_json` (`api/llm_client.py` lines 107-243) as a function of
the sequence of external-call outcomes: extraction and coercion happen
in the callers, so the retry loop wraps nothing but `calls`. -/
def generate_json_run (calls : Nat → Except String LlmOk) (retries : Nat) :
    Except String LlmOk × List Nat × Nat :=
  genGoAux calls 0 retries

/- Dictionary lemmas. -/

theorem jget_jset (o : JObj) (k k' : String) (v : JVal) :
    jget (jset o k v) k' = if k = k' then some v else jget o k' := by
  induction o with
  | nil =>
    by_cases h : k = k' <;> simp [jget, jset, h]
  | cons p rest ih =>
    obtain ⟨k1, v1⟩ := p
    by_cases h1 : k1 = k
    · subst h1
      by_cases h2 : k1 = k' <;> simp [jget, jset, h2]
    · by_cases h2 : k1 = k'
      · subst h2
        have hne : ¬k = k1 := fun hh => h1 hh.symm
        simp [jget, jset, h1, hne]
      · simp [jget, jset, h1, h2, ih]

theorem jget_isSome_mem_keys {o : JObj} {k : String} (h : (jget o k).isSome = true) :
    k ∈ o.map Prod.fst := by
  induction o with
  | nil => simp [jget] at h
  | cons p rest ih =>
    obtain ⟨k1, v1⟩ := p
    by_cases h1 : k1 = k
    · simp [h1]
    · simp [jget, h1] at h
      simp [ih h]

theorem jget_mem {o : JObj} {k : String} {v : JVal} (h : jget o k = some v) : (k, v) ∈ o := by
  induction o with
  | nil => simp [jget] at h
  | cons p rest ih =>
    obtain ⟨k1, v1⟩ := p
    by_cases h1 : k1 = k
    · subst h1
      simp [jget] at h
      simp [h]
    · simp [jget, h1] at h
      simp [ih h]

theorem jget_jdel (o : JObj) (k k' : String) :
    jget (jdel o k) k' = if k' = k then none else jget o k' := by
  induction o with
  | nil => by_cases h : k' = k <;> simp [jget, jdel, h]
  | cons p rest ih =>
    obtain ⟨k1, v1⟩ := p
    by_cases h1 : k1 = k
    · subst h1
      by_cases h2 : k' = k1
      · subst h2
        simp [jget, jdel, ih]
      · have h2' : ¬k1 = k' := fun hh => h2 hh.symm
        simp [jget, jdel, h2, h2', ih]
    · by_cases h2 : k' = k1
      · subst h2
        have hk : ¬k' = k := fun hh => h1 (hh ▸ rfl)
        simp [jget, jdel, h1, hk]
      · have h2' : ¬k1 = k' := fun hh => h2 hh.symm
        simp [jget, jdel, h1, h2', ih]

theorem jget_foldl_jdel (ks : List String) (o : JObj) (k : String) :
    jget (ks.foldl (fun acc k1 => jdel acc k1) o) k = if k ∈ ks then none else jget o k := by
  induction ks generalizing o with
  | nil => simp
  | cons k1 rest ih =>
    by_cases h : k = k1
    · subst h
      simp [List.foldl, ih, jget_jdel]
    · by_cases h2 : k ∈ rest <;> simp [List.foldl, ih, jget_jdel, h, h2]

theorem jget_map_self (ks : List String) (f : String → JVal) (k : String) (h : k ∈ ks) :
    jget (ks.map (fun k1 => (k1, f k1))) k = some (f k) := by
  induction ks with
  | nil => simp at h
  | cons k1 rest ih =>
    by_cases h1 : k1 = k
    · subst h1
      simp [jget]
    · have hmem : k ∈ rest := by
        cases List.mem_cons.mp h with
        | inl hh => exact absurd hh.symm h1
        | inr hh => exact hh
      simp [jget, h1, ih hmem]

/- Schema well-formedness: every property definition is a dict carrying
a `type` key — the shape §3 of the spec requires of a `Schema`. -/

def wfEntryB : JVal → Bool
  | .obj o => (jget o ("type")).isSome
  | _ => false

def wfSchemaB (schema : JObj) : Bool :=
  schema.all (fun p => wfEntryB p.2)

theorem wf_subscript {schema : JObj} {k : String} {sv : JVal}
    (hw : wfSchemaB schema = true) (h : jget schema k = some sv) :
    ∃ t, pySubscriptStr sv ("type") = .ok t := by
  have hall := List.all_eq_true.mp hw _ (jget_mem h)
  cases sv with
  | obj o =>
    simp only [wfEntryB] at hall
    obtain ⟨t, ht⟩ := Option.isSome_iff_exists.mp hall
    exact ⟨t, by simp [pySubscriptStr, ht]⟩
  | null => simp [wfEntryB] at hall
  | bool b => simp [wfEntryB] at hall
  | num q => simp [wfEntryB] at hall
  | str s => simp [wfEntryB] at hall
  | arr xs => simp [wfEntryB] at hall

theorem coercePropsAux_subset {schema : JObj} :
    ∀ {data : List (String × JVal)} {validated out : JObj},
      coercePropsAux schema data validated = .ok out →
      (∀ k, (jget validated k).isSome = true → (jget schema k).isSome = true) →
      ∀ k, (jget out k).isSome = true → (jget schema k).isSome = true := by
  intro data
  induction data with
  | nil =>
    intro validated out h hinv k hk
    simp only [coercePropsAux] at h
    cases h
    exact hinv k hk
  | cons p rest ih =>
    intro validated out h hinv k hk
    obtain ⟨k1, v1⟩ := p
    simp only [coercePropsAux] at h
    split at h
    · exact ih h hinv k hk
    · rename_i sv hks
      split at h
      · exact Except.noConfusion h
      · split at h
        · exact Except.noConfusion h
        · refine ih h ?_ k hk
          intro k2 hk2
          rw [jget_jset] at hk2
          by_cases he : k1 = k2
          · subst he
            simp [hks]
          · rw [if_neg he] at hk2
            exact hinv k2 hk2
        · exact ih h hinv k hk

theorem pyFloat_error_cases (v : JVal) (e : PyErr) (h : pyFloat v = .error e) :
    e = .valueError ∨ e = .typeError ∨ e = .overflowError := by
  cases v with
  | null =>
    simp only [pyFloat, Except.error.injEq] at h
    exact Or.inr (Or.inl h.symm)
  | bool b => cases b <;> exact Except.noConfusion h
  | num q =>
    cases q with
    | int m =>
      by_cases hb : FLOAT_OVERFLOW_BOUND ≤ m.natAbs
      · simp only [pyFloat, if_pos hb, Except.error.injEq] at h
        exact Or.inr (Or.inr h.symm)
      · simp only [pyFloat, if_neg hb] at h
        exact Except.noConfusion h
    | float m e1 => exact Except.noConfusion h
    | inf n => exact Except.noConfusion h
    | nan => exact Except.noConfusion h
  | str s =>
    cases hp : pyFloatParse s with
    | some q => simp [pyFloat, hp] at h
    | none =>
      simp only [pyFloat, hp, Except.error.injEq] at h
      exact Or.inl h.symm
  | arr xs =>
    simp only [pyFloat, Except.error.injEq] at h
    exact Or.inr (Or.inl h.symm)
  | obj o =>
    simp only [pyFloat, Except.error.injEq] at h
    exact Or.inr (Or.inl h.symm)

theorem coerceNumCatch_error {r : Except PyErr PyNum} {e : PyErr}
    (hr : ∀ e2, r = .error e2 → e2 = .valueError ∨ e2 = .typeError ∨ e2 = .overflowError)
    (h : coerceNumCatch r = .error e) : e = .overflowError := by
  cases r with
  | ok q => exact Except.noConfusion h
  | error err =>
    simp only [coerceNumCatch] at h
    by_cases hvt : err = .valueError ∨ err = .typeError
    · rw [if_pos hvt] at h
      exact Except.noConfusion h
    · rw [if_neg hvt] at h
      injection h with h2
      rcases hr err rfl with h1 | h1 | h1
      · exact absurd (Or.inl h1) hvt
      · exact absurd (Or.inr h1) hvt
      · rw [← h2, h1]

/-- The only error the `number` arm can raise is the uncaught
`OverflowError` of `float()` on an oversized int. -/
theorem coerceNumber_error {v : JVal} {e : PyErr} (h : coerceNumber v = .error e) :
    e = .overflowError := by
  cases v with
  | null => exact Except.noConfusion h
  | bool b => exact coerceNumCatch_error (pyFloat_error_cases (.bool b)) h
  | num q => exact coerceNumCatch_error (pyFloat_error_cases (.num q)) h
  | str s => exact coerceNumCatch_error (pyFloat_error_cases (.str s)) h
  | arr xs => exact coerceNumCatch_error (pyFloat_error_cases (.arr xs)) h
  | obj o => exact coerceNumCatch_error (pyFloat_error_cases (.obj o)) h

/-- The only error one cast-loop iteration can raise is
`OverflowError`. -/
theorem coerceValue_error_overflow {t v : JVal} {e : PyErr}
    (h : coerceValue t v = .error e) : e = .overflowError := by
  unfold coerceValue at h
  split at h
  · dsimp only at h
    split at h <;> exact Except.noConfusion h
  · split at h
    · exact Except.noConfusion h
    · split at h
      · dsimp only at h
        split at h <;> exact Except.noConfusion h
      · split at h
        · dsimp only at h
          split at h <;> exact Except.noConfusion h
        · split at h
          · exact Except.noConfusion h
          · split at h
            · exact coerceNumber_error h
            · split at h
              · exact Except.noConfusion h
              · split at h
                · exact Except.noConfusion h
                · exact Except.noConfusion h

/-- With a well-formed schema, the cast loop either returns a map or
raises `OverflowError` — `ValueError` and `TypeError` are caught inside
the loop, and nothing else arises. -/
theorem coercePropsAux_ok_or_overflow {schema : JObj} (hw : wfSchemaB schema = true) :
    ∀ (data : List (String × JVal)) (validated : JObj),
      (∃ out, coercePropsAux schema data validated = .ok out)
      ∨ coercePropsAux schema data validated = .error .overflowError := by
  intro data
  induction data with
  | nil => intro validated; exact Or.inl ⟨validated, rfl⟩
  | cons p rest ih =>
    intro validated
    obtain ⟨k1, v1⟩ := p
    simp only [coercePropsAux]
    cases hks : jget schema k1 with
    | none => exact ih validated
    | some sv =>
      dsimp only
      obtain ⟨t, ht⟩ := wf_subscript hw hks
      rw [ht]
      dsimp only
      cases hcv : coerceValue t v1 with
      | error e2 =>
        have he := coerceValue_error_overflow hcv
        subst he
        exact Or.inr rfl
      | ok oc =>
        cases oc with
        | none => exact ih validated
        | some cv => exact ih (jset validated k1 cv)

theorem coercePropsAux_error_overflow {schema : JObj} (hw : wfSchemaB schema = true) :
    ∀ {data : List (String × JVal)} {validated : JObj} {e : PyErr},
      coercePropsAux schema data validated = .error e → e = .overflowError := by
  intro data
  induction data with
  | nil =>
    intro validated e h
    exact Except.noConfusion h
  | cons p rest ih =>
    intro validated e h
    obtain ⟨k1, v1⟩ := p
    simp only [coercePropsAux] at h
    cases hks : jget schema k1 with
    | none =>
      rw [hks] at h
      exact ih h
    | some sv =>
      rw [hks] at h
      dsimp only at h
      obtain ⟨t, ht⟩ := wf_subscript hw hks
      rw [ht] at h
      dsimp only at h
      cases hcv : coerceValue t v1 with
      | error e2 =>
        rw [hcv] at h
        injection h with h2
        rw [← h2]
        exact coerceValue_error_overflow hcv
      | ok oc =>
        rw [hcv] at h
        cases oc with
        | none => exact ih h
        | some cv => exact ih h

theorem coercePropsAux_preserve {schema : JObj} :
    ∀ {data : List (String × JVal)} {validated out : JObj} {k : String},
      coercePropsAux schema data validated = .ok out →
      (jget validated k).isSome = true → (jget out k).isSome = true := by
  intro data
  induction data with
  | nil =>
    intro validated out k h hk
    simp only [coercePropsAux] at h
    cases h
    exact hk
  | cons p rest ih =>
    intro validated out k h hk
    obtain ⟨k1, v1⟩ := p
    simp only [coercePropsAux] at h
    split at h
    · exact ih h hk
    · split at h
      · exact Except.noConfusion h
      · split at h
        · exact Except.noConfusion h
        · refine ih h ?_
          rw [jget_jset]
          by_cases he : k1 = k
          · simp [he]
          · rw [if_neg he]
            exact hk
        · exact ih h hk

theorem coerceValue_number_badstr (s : String) (h : pyFloatParse s = none) :
    coerceValue (.str ("number")) (.str s) = .ok none := by
  show coerceNumCatch (pyFloat (.str s)) = .ok none
  simp [pyFloat, h, coerceNumCatch]

theorem coerceValue_ms_always (v : JVal) :
    ∃ opts, coerceValue (.str ("multi_select")) v
      = .ok (some (.obj [("multi_select", .arr opts)])) :=
  ⟨_, rfl⟩

def hugeInt400 : String := String.mk ('1' :: List.replicate 400 '0')

/-- C1 (corrected): with every schema property definition carrying a
type and any extracted JSON object, the cast loop of
`validate_and_fix_json` either returns a map whose keys are all schema
keys or raises `OverflowError` — the one error it can raise, coming
from `float()` of an integer beyond the double range, which the loop's
`except (ValueError, TypeError)` does not catch (see the
counterexample); a failed cast — a string rejected by `float()`'s
grammar (a grammar that does accept `inf`/`nan`/`infinity` and
underscore-grouped digits) for a `number` property, an empty/None
value for `select`, `status` or `date`, any value for `people`/`files`
— produces no output entry at all. -/
theorem coerce_lossy_or_overflow (schema data : JObj) (hw : wfSchemaB schema = true) :
    ((∃ out, coerceProps data schema = .ok out)
      ∨ coerceProps data schema = .error .overflowError)
    ∧ (∀ e, coerceProps data schema = .error e → e = .overflowError)
    ∧ (∀ out, coerceProps data schema = .ok out →
        ∀ k, (jget out k).isSome = true → (jget schema k).isSome = true)
    ∧ (∀ s, pyFloatParse s = none → coerceValue (.str ("number")) (.str s) = .ok none)
    ∧ (coerceValue (.str ("select")) .null = .ok none
       ∧ coerceValue (.str ("select")) (.str "") = .ok none
       ∧ coerceValue (.str ("status")) .null = .ok none
       ∧ coerceValue (.str ("status")) (.str "") = .ok none
       ∧ coerceValue (.str ("date")) .null = .ok none
       ∧ coerceValue (.str ("date")) (.str "") = .ok none)
    ∧ (∀ v, coerceValue (.str ("people")) v = .ok none
       ∧ coerceValue (.str ("files")) v = .ok none) := by
  refine ⟨coercePropsAux_ok_or_overflow hw data [],
    fun e he => coercePropsAux_error_overflow hw he,
    fun out hout => coercePropsAux_subset hout (fun k hk => by simp [jget] at hk),
    coerceValue_number_badstr, by decide, fun v => ⟨rfl, rfl⟩⟩

/-- Witness for `coerce_lossy_or_overflow`: at a concrete number-typed
schema, a run on in-range data, and the drop of the non-numeric string
`"abc"`. -/
theorem coerce_lossy_or_overflow_witness :
    ((∃ out, coerceProps ([("Priority", .str ("5")), ("Junk", .str ("x"))])
        ([("Priority", .obj [("type", .str ("number"))])]) = .ok out)
      ∨ coerceProps ([("Priority", .str ("5")), ("Junk", .str ("x"))])
          ([("Priority", .obj [("type", .str ("number"))])]) = .error .overflowError)
    ∧ coerceValue (.str ("number")) (.str ("abc")) = .ok none :=
  ⟨(coerce_lossy_or_overflow ([("Priority", .obj [("type", .str ("number"))])])
      ([("Priority", .str ("5")), ("Junk", .str ("x"))]) (by decide)).1,
   (coerce_lossy_or_overflow ([("Priority", .obj [("type", .str ("number"))])])
      ([("Priority", .str ("5")), ("Junk", .str ("x"))]) (by decide)).2.2.2.1 ("abc") (by decide)⟩

set_option maxRecDepth 40000 in
/-- C1 counterexample: a 401-digit integer literal is parsed exactly by
`json.loads` (Python ints are arbitrary precision), and `float()` of it
then raises `OverflowError`, which `except (ValueError, TypeError)`
does not catch — `validate_and_fix_json` raises instead of returning a
map, so the claim that the loop never raises is false. -/
theorem coerce_overflow_counterexample :
    validate_and_fix_json ("\x7b\"N\": " ++ hugeInt400 ++ "\x7d")
        ([("N", .obj [("type", .str ("number"))])])
      = .error .overflowError := by decide

theorem coercePropsAux_ms_present {schema : JObj} {k : String} {sv : JVal}
    (hks : jget schema k = some sv)
    (ht : pySubscriptStr sv ("type") = .ok (.str ("multi_select"))) :
    ∀ {data : List (String × JVal)} {validated out : JObj} {v : JVal},
      coercePropsAux schema data validated = .ok out → jget data k = some v →
      (jget out k).isSome = true := by
  intro data
  induction data with
  | nil =>
    intro validated out v h hv
    simp [jget] at hv
  | cons p rest ih =>
    intro validated out v h hv
    obtain ⟨k1, v1⟩ := p
    by_cases he : k1 = k
    · subst he
      simp only [coercePropsAux, hks] at h
      rw [ht] at h
      dsimp only at h
      obtain ⟨opts, hopts⟩ := coerceValue_ms_always v1
      rw [hopts] at h
      refine coercePropsAux_preserve h ?_
      rw [jget_jset]
      simp
    · simp only [jget, he] at hv
      simp only [coercePropsAux] at h
      split at h
      · exact ih h hv
      · split at h
        · exact Except.noConfusion h
        · split at h
          · exact Except.noConfusion h
          · exact ih h hv
          · exact ih h hv

/-- C10 (implicit): a schema key of type `multi_select` present in the
extracted object always produces an output entry
`\x7b"multi_select": [...]\x7d` — even for a null, empty, or
fully-dropped input value, in which case the option list is empty — the
key itself is never dropped, unlike `select`, `status` and `date` keys,
which are omitted when their value is empty or null. -/
theorem multi_select_never_dropped (schema : JObj) :
    (∀ v, ∃ opts, coerceValue (.str ("multi_select")) v
        = .ok (some (.obj [("multi_select", .arr opts)])))
    ∧ coerceValue (.str ("multi_select")) .null = .ok (some (.obj [("multi_select", .arr [])]))
    ∧ coerceValue (.str ("multi_select")) (.arr [.null, .str "", .obj []])
        = .ok (some (.obj [("multi_select", .arr [])]))
    ∧ (∀ (data validated out : JObj) (k : String) (sv v : JVal),
        jget schema k = some sv → pySubscriptStr sv ("type") = .ok (.str ("multi_select")) →
        coercePropsAux schema data validated = .ok out → jget data k = some v →
        (jget out k).isSome = true)
    ∧ (coerceValue (.str ("select")) .null = .ok none
       ∧ coerceValue (.str ("status")) .null = .ok none
       ∧ coerceValue (.str ("date")) .null = .ok none) := by
  refine ⟨fun v => coerceValue_ms_always v, by decide, by decide, ?_, by decide⟩
  intro data validated out k sv v hks ht h hv
  exact coercePropsAux_ms_present hks ht h hv

/-- Witness for `multi_select_never_dropped`: a null-valued
`multi_select` key survives coercion with an empty option list. -/
theorem multi_select_never_dropped_witness :
    (jget ([("M", JVal.obj [("multi_select", .arr [])])]) ("M")).isSome = true :=
  (multi_select_never_dropped ([("M", .obj [("type", .str ("multi_select"))])])).2.2.2.1
    ([("M", JVal.null)]) [] ([("M", JVal.obj [("multi_select", .arr [])])]) ("M")
    (.obj [("type", .str ("multi_select"))]) .null
    (by decide) (by decide) (by decide) (by decide)

theorem truthy_append_left (s t : String) (h : s ≠ "") :
    truthy (.str (s ++ t)) = true := by
  simp only [truthy, decide_eq_true_eq]
  intro hc
  apply h
  cases s with
  | mk sd =>
    cases t with
    | mk td =>
      have h2 : sd ++ td = ([] : List Char) := congrArg String.data hc
      have hsd : sd = [] := (List.append_eq_nil.mp h2).1
      rw [hsd]

/-- The synthesis hint is usable: a `properties` value, when present
and truthy, is a dict (otherwise the default argument of the `Title`
lookup raises `AttributeError`). -/
def propHintOkB (o : JObj) : Bool :=
  match jget o ("properties") with
  | some pv => !truthy pv || (match pv with | .obj _ => true | _ => false)
  | none => true

theorem synthesizeMessage_ok {o : JObj} {d' : JVal}
    (h : synthesizeMessage (.obj o) = .ok d') :
    ∃ msg, d' = .obj (jset o ("message") (.str msg)) ∧ truthy (.str msg) = true := by
  simp only [synthesizeMessage, pyContains, pyGet, pySetItem, Bind.bind, Except.bind] at h
  split at h
  · split at h
    · exact Except.noConfusion h
    · cases h
      refine ⟨_, rfl, ?_⟩
      split
      · exact truthy_append_left _ _ (by decide)
      · decide
  · cases h
    exact ⟨_, rfl, by decide⟩

theorem synthesizeMessage_exists {o : JObj} (hint : propHintOkB o = true) :
    ∃ d', synthesizeMessage (.obj o) = .ok d' := by
  simp only [synthesizeMessage, pyContains, pyGet, pySetItem, Bind.bind, Except.bind]
  split
  · have hobj : ∃ po, (if truthy ((jget o ("properties")).getD .null) = true
        then (jget o ("properties")).getD .null else JVal.obj []) = .obj po := by
      cases hpv : jget o ("properties") with
      | none => exact ⟨[], by simp [truthy]⟩
      | some pv =>
        by_cases htv : truthy pv = true
        · simp only [propHintOkB, hpv, htv, Bool.not_true, Bool.false_or] at hint
          cases pv with
          | obj po => exact ⟨po, by simp [htv]⟩
          | null => simp at hint
          | bool b => simp at hint
          | num q => simp at hint
          | str s => simp at hint
          | arr xs => simp at hint
        · exact ⟨[], by simp [Option.getD, htv]⟩
    obtain ⟨po, hpo⟩ := hobj
    rw [hpo]
    exact ⟨_, rfl⟩
  · exact ⟨_, rfl⟩

theorem guaranteeMessage_ok {o : JObj} {d' : JVal}
    (h : guaranteeMessage (.obj o) = .ok d') :
    ∃ o' m, d' = .obj o' ∧ jget o' ("message") = some m ∧ truthy m = true := by
  cases hm : jget o ("message") with
  | none =>
    have h2 : synthesizeMessage (.obj o) = .ok d' := by
      simpa [guaranteeMessage, pyContains, pySubscriptStr, Bind.bind, Except.bind,
        Pure.pure, Except.pure, hm] using h
    obtain ⟨msg, hdd, ht⟩ := synthesizeMessage_ok h2
    exact ⟨_, _, hdd, by simp [jget_jset], ht⟩
  | some mv =>
    by_cases htv : truthy mv = true
    · have h2 : (.ok (.obj o) : Except PyErr JVal) = .ok d' := by
        simpa [guaranteeMessage, pyContains, pySubscriptStr, Bind.bind, Except.bind,
          Pure.pure, Except.pure, hm, htv] using h
      cases h2
      exact ⟨o, mv, rfl, hm, htv⟩
    · have h2 : synthesizeMessage (.obj o) = .ok d' := by
        simpa [guaranteeMessage, pyContains, pySubscriptStr, Bind.bind, Except.bind,
          Pure.pure, Except.pure, hm, htv] using h
      obtain ⟨msg, hdd, ht⟩ := synthesizeMessage_ok h2
      exact ⟨_, _, hdd, by simp [jget_jset], ht⟩

theorem guaranteeMessage_noop {o : JObj} {m : JVal}
    (hm : jget o ("message") = some m) (ht : truthy m = true) :
    guaranteeMessage (.obj o) = .ok (.obj o) := by
  simp [guaranteeMessage, pyContains, pySubscriptStr, hm, ht, Bind.bind, Except.bind,
    Pure.pure, Except.pure]

theorem guaranteeMessage_exists {o : JObj} (hint : propHintOkB o = true) :
    ∃ d', guaranteeMessage (.obj o) = .ok d' := by
  cases hm : jget o ("message") with
  | none =>
    obtain ⟨d', hd⟩ := synthesizeMessage_exists hint
    exact ⟨d', by simp [guaranteeMessage, pyContains, pySubscriptStr, Bind.bind,
      Except.bind, Pure.pure, Except.pure, hm, hd]⟩
  | some mv =>
    by_cases htv : truthy mv = true
    · exact ⟨.obj o, guaranteeMessage_noop hm htv⟩
    · obtain ⟨d', hd⟩ := synthesizeMessage_exists hint
      exact ⟨d', by simp [guaranteeMessage, pyContains, pySubscriptStr, Bind.bind,
        Except.bind, Pure.pure, Except.pure, hm, htv, hd]⟩

theorem promoteProperties_has (o schema : JObj)
    (hp : (jget o ("properties")).isSome = true) :
    promoteProperties (.obj o) schema = .ok (.obj o) := by
  simp [promoteProperties, pyContains, hp, Bind.bind, Except.bind, Pure.pure, Except.pure]

theorem promoteProperties_none_empty (o schema : JObj)
    (hp : jget o ("properties") = none)
    (hk : (o.map Prod.fst).filter (fun k => (jget schema k).isSome) = []) :
    promoteProperties (.obj o) schema = .ok (.obj o) := by
  simp [promoteProperties, pyContains, hp, hk, Bind.bind, Except.bind, Pure.pure, Except.pure]

theorem promoteProperties_none_nonempty (o schema : JObj)
    (hp : jget o ("properties") = none)
    (hk : (o.map Prod.fst).filter (fun k => (jget schema k).isSome) ≠ []) :
    promoteProperties (.obj o) schema =
      .ok (.obj (jset (((o.map Prod.fst).filter (fun k => (jget schema k).isSome)).foldl
            (fun acc k => jdel acc k) o) ("properties")
          (.obj (((o.map Prod.fst).filter (fun k => (jget schema k).isSome)).map
            (fun k => (k, (jget o k).getD .null)))))) := by
  simp [promoteProperties, pyContains, hp, hk, Bind.bind, Except.bind, Pure.pure, Except.pure]

theorem promoteProperties_idem {o schema : JObj} {d' : JVal}
    (h : promoteProperties (.obj o) schema = .ok d') :
    promoteProperties d' schema = .ok d' := by
  cases hp : jget o ("properties") with
  | some pv =>
    rw [promoteProperties_has o schema (by simp [hp])] at h
    cases h
    exact promoteProperties_has o schema (by simp [hp])
  | none =>
    by_cases hk : (o.map Prod.fst).filter (fun k => (jget schema k).isSome) = []
    · rw [promoteProperties_none_empty o schema hp hk] at h
      cases h
      exact promoteProperties_none_empty o schema hp hk
    · rw [promoteProperties_none_nonempty o schema hp hk] at h
      cases h
      apply promoteProperties_has
      rw [jget_jset]
      simp

/-- C4 (corrected): for every chat extraction result and schema, when
the parsed object's `properties` hint is usable (`propHintOkB`: absent,
falsy, or a dict — a truthy non-dict value makes the hint lookup raise
`AttributeError`, see the counterexample), a missing or empty message
is replaced by a synthesized non-empty one; when no `properties` key
exists, every top-level key matching a schema key is moved into a new
`properties` map and removed from the top level; and the
`\x7b"Title": "Buy milk"\x7d` example normalizes to a non-empty message
with `properties` equal to the coercion of the promoted map. -/
theorem chat_normalizer_normalizes (schema : JObj) :
    (∀ o : JObj, propHintOkB o = true →
       ∃ o' m, guaranteeMessage (.obj o) = .ok (.obj o') ∧
         jget o' ("message") = some m ∧ truthy m = true)
    ∧ (∀ o : JObj, jget o ("properties") = none →
        ∃ o', promoteProperties (.obj o) schema = .ok (.obj o') ∧
          (∀ k, k ≠ "properties" → (jget schema k).isSome = true → jget o' k = none)
          ∧ (∀ k v, jget o k = some v → (jget schema k).isSome = true →
              ∃ po, jget o' ("properties") = some (.obj po) ∧ jget po k = some v))
    ∧ ((do
          let d ← guaranteeMessage (.obj [("Title", .str ("Buy milk"))])
          let d ← promoteProperties d ([("Title", .obj [("type", .str ("title"))])])
          chatCoerceStep d ([("Title", .obj [("type", .str ("title"))])]) : Except PyErr JVal)
        = .ok (.obj [("message", .str ("内容を整理しました: Buy milk")),
                     ("properties", .obj [("Title", titleSpan ("Buy milk"))])])) := by
  refine ⟨?_, ?_, by decide⟩
  · intro o hint
    obtain ⟨d', hd⟩ := guaranteeMessage_exists hint
    obtain ⟨o', m, rfl, hm, ht⟩ := guaranteeMessage_ok hd
    exact ⟨o', m, hd, hm, ht⟩
  · intro o hp
    by_cases hk : (o.map Prod.fst).filter (fun k => (jget schema k).isSome) = []
    · refine ⟨o, promoteProperties_none_empty o schema hp hk, ?_, ?_⟩
      · intro k hkp hks
        cases hko : jget o k with
        | none => rfl
        | some v =>
          exfalso
          have hmem : k ∈ (o.map Prod.fst).filter (fun k => (jget schema k).isSome) :=
            List.mem_filter.mpr ⟨jget_isSome_mem_keys (by simp [hko]), hks⟩
          rw [hk] at hmem
          simp at hmem
      · intro k v hko hks
        exfalso
        have hmem : k ∈ (o.map Prod.fst).filter (fun k => (jget schema k).isSome) :=
          List.mem_filter.mpr ⟨jget_isSome_mem_keys (by simp [hko]), hks⟩
        rw [hk] at hmem
        simp at hmem
    · refine ⟨_, promoteProperties_none_nonempty o schema hp hk, ?_, ?_⟩
      · intro k hkp hks
        rw [jget_jset, if_neg (fun hh => hkp hh.symm), jget_foldl_jdel]
        split
        · rfl
        · rename_i hnotin
          cases hko : jget o k with
          | none => rfl
          | some v =>
            exact absurd (List.mem_filter.mpr
              ⟨jget_isSome_mem_keys (by simp [hko]), hks⟩) hnotin
      · intro k v hko hks
        have hmem : k ∈ (o.map Prod.fst).filter (fun k => (jget schema k).isSome) :=
          List.mem_filter.mpr ⟨jget_isSome_mem_keys (by simp [hko]), hks⟩
        refine ⟨((o.map Prod.fst).filter (fun k => (jget schema k).isSome)).map
            (fun k => (k, (jget o k).getD .null)), ?_, ?_⟩
        · simp [jget_jset]
        · rw [jget_map_self _ _ _ hmem, hko]
          rfl

/-- C4 counterexample: the claim as stated fails — on the parsed object
`\x7b"properties": "x"\x7d` (no message key, truthy non-dict
properties) the chat normalizer raises `AttributeError` instead of
synthesizing a message. -/
theorem chat_normalizer_counterexample :
    chat_analyze_text_with_ai ([("Title", .obj [("type", .str ("title"))])])
      (.ok ⟨"\x7b\"properties\": \"x\"\x7d", .obj [], PyNum.zero, "m", .null⟩) ("m") ("auto") false
      = .error .attributeError := by decide

/-- Witness for `chat_normalizer_normalizes`: the message-guarantee and
promotion parts at the `\x7b"Title": "Buy milk"\x7d` object. -/
theorem chat_normalizer_normalizes_witness :
    (∃ o' m, guaranteeMessage (.obj [("Title", .str ("Buy milk"))]) = .ok (.obj o') ∧
       jget o' ("message") = some m ∧ truthy m = true) := by
  have h := (chat_normalizer_normalizes ([("Title", .obj [("type", .str ("title"))])])).1
    ([("Title", .str ("Buy milk"))]) (by decide)
  exact h

/-- C7 (corrected): the message-guarantee and property-promotion
transitions are idempotent; the coercion transition is a no-op when the
`properties` key is absent (the counterexample shows it is not
idempotent on a coerced map). -/
theorem normalizer_transition_idempotence (schema : JObj) :
    (∀ (o : JObj) (d' : JVal), guaranteeMessage (.obj o) = .ok d' →
       guaranteeMessage d' = .ok d')
    ∧ (∀ (o : JObj) (d' : JVal), promoteProperties (.obj o) schema = .ok d' →
        promoteProperties d' schema = .ok d')
    ∧ (∀ o : JObj, jget o ("properties") = none →
        chatCoerceStep (.obj o) schema = .ok (.obj o)) := by
  refine ⟨?_, ?_, ?_⟩
  · intro o d' h
    obtain ⟨o', m, rfl, hm, ht⟩ := guaranteeMessage_ok h
    exact guaranteeMessage_noop hm ht
  · intro o d' h
    exact promoteProperties_idem h
  · intro o hp
    simp [chatCoerceStep, pyContains, hp, Bind.bind, Except.bind, Pure.pure, Except.pure]

/-- C7 counterexample: re-applying the coercion transition to an
already-coerced `select` property drops it — the transition is not
idempotent. -/
theorem coercion_step_not_idempotent :
    chatCoerceStep (.obj [("message", .str ("m")), ("properties", .obj [("S", .str ("A"))])])
        ([("S", .obj [("type", .str ("select"))])])
      = .ok (.obj [("message", .str ("m")),
                   ("properties", .obj [("S", .obj [("select", .obj [("name", .str ("A"))])])])])
    ∧ chatCoerceStep (.obj [("message", .str ("m")),
                   ("properties", .obj [("S", .obj [("select", .obj [("name", .str ("A"))])])])])
        ([("S", .obj [("type", .str ("select"))])])
      = .ok (.obj [("message", .str ("m")), ("properties", .obj [])])
    ∧ (JVal.obj [("message", .str ("m")), ("properties", .obj [])])
      ≠ .obj [("message", .str ("m")),
              ("properties", .obj [("S", .obj [("select", .obj [("name", .str ("A"))])])])] := by
  refine ⟨by decide, by decide, by decide⟩

/-- Witness for `normalizer_transition_idempotence` at a concrete
already-guaranteed object. -/
theorem normalizer_transition_idempotence_witness :
    guaranteeMessage (.obj [("message", .str ("hi"))]) = .ok (.obj [("message", .str ("hi"))]) :=
  (normalizer_transition_idempotence []).1 ([("message", .str ("hi"))])
    (.obj [("message", .str ("hi"))]) (by decide)

set_option maxHeartbeats 2000000 in
theorem vfj_staged (s : String) (schema : JObj) :
    validate_and_fix_json s schema =
      (match vfjStagedParse s with
       | none => .ok []
       | some d => coerceData d schema) := by
  unfold validate_and_fix_json vfjStagedParse
  dsimp only
  cases jsonParse (stripFences s) with
  | some d => rfl
  | none =>
    dsimp only
    by_cases hs1 : pyFindChar (stripFences s) '{' = -1
    · rw [if_pos hs1, if_pos hs1]
    · rw [if_neg hs1, if_neg hs1]
      cases jsonParse (pySlice (stripFences s) (pyFindChar (stripFences s) '{').toNat
          (pyRFindChar (stripFences s) '}' + 1).toNat) with
      | some d => rfl
      | none => rfl

/-- C3 (corrected): in analysis mode, a raw text that no parse stage
recovers yields the empty dict; a text whose staged parse yields a
JSON object is coerced and returns a map — unless the coercion hits
`float()` of an oversized int, in which case the uncaught
`OverflowError` propagates; and a text that parses to a JSON string or
array (any non-object) makes `validate_and_fix_json` raise
`AttributeError` — it is not treated as total failure yielding the
empty dict. -/
theorem analysis_extraction_resolution (s : String) (schema : JObj)
    (hw : wfSchemaB schema = true) :
    (vfjStagedParse s = none → validate_and_fix_json s schema = .ok [])
    ∧ (∀ o, vfjStagedParse s = some (.obj o) →
        (∃ out, validate_and_fix_json s schema = .ok out)
        ∨ validate_and_fix_json s schema = .error .overflowError)
    ∧ (∀ d, vfjStagedParse s = some d → (∀ o, d ≠ .obj o) →
        validate_and_fix_json s schema = .error .attributeError) := by
  refine ⟨?_, ?_, ?_⟩
  · intro h
    rw [vfj_staged, h]
  · intro o h
    rw [vfj_staged, h]
    exact coercePropsAux_ok_or_overflow hw o []
  · intro d h hno
    rw [vfj_staged, h]
    cases d with
    | obj o => exact absurd rfl (hno o)
    | null => rfl
    | bool b => rfl
    | num q => rfl
    | str s => rfl
    | arr xs => rfl

/-- C3 counterexample: a response that parses to a JSON string makes
`validate_and_fix_json` raise `AttributeError` (caught only by its
callers); it does not return the empty dict the claim states. -/
theorem analysis_extraction_counterexample :
    validate_and_fix_json ("\"hello\"") ([("A", .obj [("type", .str ("rich_text"))])])
      = .error .attributeError
    ∧ validate_and_fix_json ("[1, 2]") ([("A", .obj [("type", .str ("rich_text"))])])
      = .error .attributeError := by
  refine ⟨by decide, by decide⟩

/-- Witness for `analysis_extraction_resolution`: unparseable text
yields the empty dict. -/
theorem analysis_extraction_resolution_witness :
    validate_and_fix_json ("not json at all") ([("A", .obj [("type", .str ("rich_text"))])])
      = .ok [] :=
  (analysis_extraction_resolution ("not json at all")
    ([("A", .obj [("type", .str ("rich_text"))])]) (by decide)).1 (by decide)

/-- C9 (corrected): in chat mode, a stage-2 (brace-substring) or
stage-3 (synthetic-brace) recovery sets `_json_recovered = true` and a
direct parse adds no flag; in analysis mode no recovery flag exists at
all — every key of `validate_and_fix_json`'s output is a schema key, so
a stage-2 recovery there is unflagged (see the counterexample). -/
theorem recovery_flagging (s : String) (schema : JObj) :
    (∀ o, jsonParse s = some (.obj o) → o ≠ [] → chatParse s = .ok (.obj o))
    ∧ (∀ o, jsonParse s = none → chatBraceParse s = some (.obj o) →
        chatParse s = .ok (.obj (jset o ("_json_recovered") (.bool true)))
        ∧ jget (jset o ("_json_recovered") (.bool true)) ("_json_recovered")
            = some (.bool true))
    ∧ (∀ o, jsonParse s = none → chatBraceParse s = none →
        jsonParse ("\x7b" ++ pyStrip s ++ "\x7d") = some (.obj o) →
        chatParse s = .ok (.obj (jset o ("_json_recovered") (.bool true)))
        ∧ jget (jset o ("_json_recovered") (.bool true)) ("_json_recovered")
            = some (.bool true))
    ∧ (∀ out k, validate_and_fix_json s schema = .ok out →
        (jget out k).isSome = true → (jget schema k).isSome = true) := by
  refine ⟨?_, ?_, ?_, ?_⟩
  · intro o h1 hne
    simp [chatParse, h1, truthy, hne]
  · intro o h1 h2
    refine ⟨by simp [chatParse, h1, h2, pySetItem], by simp [jget_jset]⟩
  · intro o h1 h2 h3
    refine ⟨by simp [chatParse, h1, h2, h3, pySetItem], by simp [jget_jset]⟩
  · intro out k h hk
    rw [vfj_staged] at h
    cases hst : vfjStagedParse s with
    | none =>
      rw [hst] at h
      cases h
      simp [jget] at hk
    | some d =>
      rw [hst] at h
      cases d with
      | obj o =>
        exact coercePropsAux_subset h (fun k2 hk2 => by simp [jget] at hk2) k hk
      | null => exact Except.noConfusion h
      | bool b => exact Except.noConfusion h
      | num q => exact Except.noConfusion h
      | str s2 => exact Except.noConfusion h
      | arr xs => exact Except.noConfusion h

/-- C9 counterexample: an analysis-mode extraction that succeeds only
via the stage-2 brace-substring recovery returns the coerced properties
with no recovery flag of any kind. -/
theorem recovery_flagging_counterexample :
    validate_and_fix_json ("noise \x7b\"A\": \"x\"\x7d tail")
        ([("A", .obj [("type", .str ("rich_text"))])])
      = .ok ([("A", .obj [("rich_text",
          .arr [.obj [("text", .obj [("content", .str ("x"))])]])])])
    ∧ jget ([("A", JVal.obj [("rich_text",
          .arr [.obj [("text", .obj [("content", .str ("x"))])]])])]) ("_json_recovered") = none
    ∧ jget ([("A", JVal.obj [("rich_text",
          .arr [.obj [("text", .obj [("content", .str ("x"))])]])])]) ("recovered") = none := by
  refine ⟨by decide, by decide, by decide⟩

/-- Witness for `recovery_flagging`: the chat stage-2 recovery on a
prose-wrapped object carries the flag. -/
theorem recovery_flagging_witness :
    chatParse ("noise \x7b\"message\": \"hi\"\x7d tail")
      = .ok (.obj [("message", .str ("hi")), ("_json_recovered", .bool true)]) := by
  have h := ((recovery_flagging ("noise \x7b\"message\": \"hi\"\x7d tail") []).2.1
    ([("message", .str ("hi"))]) (by decide) (by decide)).1
  exact h.trans (by decide)

def titleTypedB : JVal → Bool
  | .obj o => jget o ("type") == some (.str ("title"))
  | _ => false

/-- The key the analysis fallback will use: the first schema key whose
declared type is `title`. -/
def firstTitleKey (schema : JObj) : Option String :=
  (schema.find? (fun p => titleTypedB p.2)).map (fun p => p.1)

theorem analyzeFallbackProps_eq {schema : JObj} (hw : wfSchemaB schema = true) (text : String) :
    analyzeFallbackProps text schema =
      .ok (match firstTitleKey schema with
           | some k => [(k, titleSpan text)]
           | none => []) := by
  induction schema with
  | nil => rfl
  | cons p rest ih =>
    obtain ⟨k1, sv⟩ := p
    have hw' := hw
    simp only [wfSchemaB, List.all_cons, Bool.and_eq_true] at hw'
    obtain ⟨hw1, hwr⟩ := hw'
    cases sv with
    | obj o =>
      simp only [wfEntryB] at hw1
      obtain ⟨t0, ht0⟩ := Option.isSome_iff_exists.mp hw1
      by_cases htitle : t0 = .str ("title")
      · subst htitle
        simp [analyzeFallbackProps, pySubscriptStr, ht0, firstTitleKey, List.find?, titleTypedB]
      · have hb : titleTypedB (.obj o) = false := by
          simp [titleTypedB, ht0]
          exact htitle
        simp [analyzeFallbackProps, pySubscriptStr, ht0, htitle, firstTitleKey,
          List.find?, hb, ih hwr]
    | null => simp [wfEntryB] at hw1
    | bool b => simp [wfEntryB] at hw1
    | num q => simp [wfEntryB] at hw1
    | str s => simp [wfEntryB] at hw1
    | arr xs => simp [wfEntryB] at hw1

/-- C2: when the external LLM call fails after all retries, the
analysis pipeline catches the exception and returns a degraded result —
a properties map holding exactly the first title-typed schema key with
the raw input text as its content (empty when the schema has no title
property), cost 0.0 and an error detail — and the chat pipeline returns
a non-empty apology message with null properties instead of raising. -/
theorem degraded_on_llm_failure (text : String) (schema : JObj)
    (sel req e e' : String) (fo : Bool) (hw : wfSchemaB schema = true) :
    analyze_text_with_ai text schema sel (.error e) =
      .ok (.obj [("properties",
                    .obj (match firstTitleKey schema with
                          | some k => [(k, titleSpan text)]
                          | none => [])),
                 ("usage", .obj []), ("cost", .num PyNum.zero),
                 ("model", .str sel), ("error", .str e)])
    ∧ (∃ o m, chat_analyze_text_with_ai schema (.error e') sel req fo = .ok (.obj o) ∧
        jget o ("message") = some (.str m) ∧ m ≠ "" ∧ jget o ("properties") = some .null) := by
  constructor
  · simp only [analyze_text_with_ai]
    rw [analyzeFallbackProps_eq hw text]
  · refine ⟨_, _, rfl, rfl, ?_, rfl⟩
    by_cases hc : (containsSub e' ("API key") || containsSub (pyLower e') ("auth")) = true
    · simp only [hc, if_true]
      decide
    · simp only [Bool.not_eq_true] at hc
      simp only [hc]
      decide

/-- Witness for `degraded_on_llm_failure` at a concrete schema. -/
theorem degraded_on_llm_failure_witness :
    analyze_text_with_ai ("buy milk") ([("Name", .obj [("type", .str ("title"))])])
        ("m") (.error ("boom")) =
      .ok (.obj [("properties", .obj [("Name", titleSpan ("buy milk"))]),
                 ("usage", .obj []), ("cost", .num PyNum.zero),
                 ("model", .str ("m")), ("error", .str ("boom"))]) := by
  have h := (degraded_on_llm_failure ("buy milk") ([("Name", .obj [("type", .str ("title"))])])
    ("m") ("auto") ("boom") ("x") false (by decide)).1
  exact h.trans (by decide)

theorem genGoAux_spec (calls : Nat → Except String LlmOk) :
    ∀ (remaining attempt : Nat),
      (genGoAux calls attempt remaining).2.2 ≤ remaining + 1
      ∧ (genGoAux calls attempt remaining).2.1.length + 1 = (genGoAux calls attempt remaining).2.2
      ∧ ∀ i, i < (genGoAux calls attempt remaining).2.1.length →
          (genGoAux calls attempt remaining).2.1.get? i = some (2 * (attempt + i + 1)) := by
  intro remaining
  induction remaining with
  | zero =>
    intro attempt
    cases h : calls attempt <;> simp [genGoAux, h]
  | succ rem ih =>
    intro attempt
    cases h : calls attempt with
    | ok r => simp [genGoAux, h]
    | error e =>
      obtain ⟨h1, h2, h3⟩ := ih (attempt + 1)
      rcases hg : genGoAux calls (attempt + 1) rem with ⟨res, ds, n⟩
      rw [hg] at h1 h2 h3
      simp only at h1 h2 h3
      have hgoal : genGoAux calls attempt (rem + 1) = (res, 2 * (attempt + 1) :: ds, n + 1) := by
        simp [genGoAux, h, hg]
      rw [hgoal]
      refine ⟨by simp; omega, by simp; omega, ?_⟩
      intro i hi
      cases i with
      | zero => simp
      | succ j =>
        simp only [List.length_cons] at hi
        have hj := h3 j (by omega)
        simp only [List.get?_cons_succ]
        rw [hj]
        congr 1
        omega

/-- C8 (corrected): the retry loop of `generate_json` makes at most
`retries + 1` external calls and nothing else is retried; the delay
slept after failed attempt `i` is `2 * (i + 1)` seconds — a linear
progression (2s, 4s, 6s, ...), not the base-doubling exponential the
claim states (see the counterexample). -/
theorem retry_policy (calls : Nat → Except String LlmOk) (retries : Nat) :
    (generate_json_run calls retries).2.2 ≤ retries + 1
    ∧ (generate_json_run calls retries).2.1.length + 1
        = (generate_json_run calls retries).2.2
    ∧ (∀ i, i < (generate_json_run calls retries).2.1.length →
        (generate_json_run calls retries).2.1.get? i = some (2 * (i + 1))) := by
  obtain ⟨h1, h2, h3⟩ := genGoAux_spec calls retries 0
  exact ⟨h1, h2, fun i hi => by simpa using h3 i hi⟩

/-- C8 counterexample: with four attempts the slept delays are 2, 4 and
6 seconds — the third delay is not the base delay times `2 ^ 2 = 8`. -/
theorem retry_backoff_counterexample :
    (generate_json_run (fun _ => .error ("boom")) 3).2.1 = [2, 4, 6]
    ∧ ¬((generate_json_run (fun _ => .error ("boom")) 3).2.1.get? 2 = some (2 * 2 ^ 2)) := by
  refine ⟨by decide, by decide⟩

/-- Witness for `retry_policy`: the second delay of an all-failing run. -/
theorem retry_policy_witness :
    (generate_json_run (fun _ => .error ("boom")) 3).2.1.get? 1 = some (2 * (1 + 1)) :=
  (retry_policy (fun _ => .error ("boom")) 3).2.2 1 (by decide)

/- C6: the few-shot round trip. -/

theorem value_round_trip_select (s : String) (h : s ≠ "") :
    valueRoundTrip ("select") ([("type", .str ("select")), ("select", .obj [("name", .str s)])])
      = some (.obj [("select", .obj [("name", .str s)])]) := by
  have ht : truthy (.str s) = true := by simp [truthy, h]
  show (match coerceValue (.str ("select")) (.str s) with
        | .ok r => r
        | .error _ => none) = _
  rw [show coerceValue (.str ("select")) (.str s)
      = if truthy (.str s) = true
        then .ok (some (JVal.obj [("select", .obj [("name", .str s)])]))
        else .ok none from rfl, ht]
  simp

theorem value_round_trip_date (s : String) (h : s ≠ "") :
    valueRoundTrip ("date") ([("type", .str ("date")), ("date", .obj [("start", .str s)])])
      = some (.obj [("date", .obj [("start", .str s)])]) := by
  have ht : truthy (.str s) = true := by simp [truthy, h]
  show (match coerceValue (.str ("date")) (.str s) with
        | .ok r => r
        | .error _ => none) = _
  rw [show coerceValue (.str ("date")) (.str s)
      = if truthy (.str s) = true
        then .ok (some (JVal.obj [("date", .obj [("start", .str s)])]))
        else .ok none from rfl, ht]
  simp

/-- C6 (corrected): for `select`, `date` and `checkbox`, encoding a
stored property value with the few-shot value-for-type simplification
and decoding through the coercion cast yields the original value's
store-native payload — the original stripped of its `type` tag.
`status` is excluded: the few-shot loop has no `status` branch and
renders it as the `"N/A"` placeholder (see the counterexample). -/
theorem few_shot_round_trip (s d : String) (b : Bool) (hs : s ≠ "") (hd : d ≠ "") :
    valueRoundTrip ("select") ([("type", .str ("select")), ("select", .obj [("name", .str s)])])
      = some (.obj [("select", .obj [("name", .str s)])])
    ∧ valueRoundTrip ("date") ([("type", .str ("date")), ("date", .obj [("start", .str d)])])
      = some (.obj [("date", .obj [("start", .str d)])])
    ∧ valueRoundTrip ("checkbox") ([("type", .str ("checkbox")), ("checkbox", .bool b)])
      = some (.obj [("checkbox", .bool b)]) := by
  refine ⟨value_round_trip_select s hs, value_round_trip_date d hd, ?_⟩
  show (match coerceValue (.str ("checkbox")) (.bool b) with
        | .ok r => r
        | .error _ => none) = _
  rfl

/-- C6 counterexample: the round trip is not the identity the claim
states — a `status` value is encoded as `"N/A"` and decodes to a
different value, and even for `select` the decoded value drops the
`type` tag of the stored original. -/
theorem few_shot_round_trip_counterexample :
    valueRoundTrip ("status")
        ([("type", .str ("status")), ("status", .obj [("name", .str ("Done"))])])
      = some (.obj [("status", .obj [("name", .str ("N/A"))])])
    ∧ (JVal.obj [("status", .obj [("name", .str ("N/A"))])])
        ≠ .obj ([("type", .str ("status")), ("status", .obj [("name", .str ("Done"))])])
    ∧ valueRoundTrip ("select")
        ([("type", .str ("select")), ("select", .obj [("name", .str ("A"))])])
      ≠ some (.obj ([("type", .str ("select")), ("select", .obj [("name", .str ("A"))])])) := by
  refine ⟨by decide, by decide, by decide⟩

/-- Witness for `few_shot_round_trip` at concrete payloads. -/
theorem few_shot_round_trip_witness :
    valueRoundTrip ("select") ([("type", .str ("select")), ("select", .obj [("name", .str ("A"))])])
      = some (.obj [("select", .obj [("name", .str ("A"))])]) :=
  (few_shot_round_trip ("A") ("2026-01-01") true (by decide) (by decide)).1

theorem available_models_mem {env : MEnv} {m : MEntry} {b : Bool}
    (h : m ∈ get_available_models env b) :
    m ∈ env.registry ∧ env.avail m.litellm_provider = true := by
  simp only [get_available_models, List.mem_filter, Bool.and_eq_true] at h
  exact ⟨h.1, h.2.1.2⟩

theorem mem_map_id {l : List MEntry} {x : String} (h : x ∈ l.map (fun m => m.id)) :
    ∃ e, e ∈ l ∧ e.id = x := by
  obtain ⟨e, he, rfl⟩ := List.mem_map.mp h
  exact ⟨e, he, rfl⟩

theorem select_auto_mem {env : MEnv} {hi ig : Bool} {m : String}
    (h : select_model_auto env hi ig = .ok m) :
    ∃ e, e ∈ env.registry ∧ e.id = m ∧ env.avail e.litellm_provider = true := by
  have from_avail : ∀ {e : MEntry}, e ∈ get_available_models env true →
      e.id = m → ∃ e2, e2 ∈ env.registry ∧ e2.id = m ∧ env.avail e2.litellm_provider = true := by
    intro e he hid
    obtain ⟨h1, h3⟩ := available_models_mem he
    exact ⟨e, h1, hid, h3⟩
  have from_ig : ∀ {e : MEntry}, e ∈ get_image_generation_models env →
      e.id = m → ∃ e2, e2 ∈ env.registry ∧ e2.id = m ∧ env.avail e2.litellm_provider = true := by
    intro e he hid
    refine from_avail ?_ hid
    simp only [get_image_generation_models, List.mem_filter] at he
    exact he.1
  have from_cap : ∀ {b : Bool} {e : MEntry}, e ∈ get_models_by_capability env b →
      e.id = m → ∃ e2, e2 ∈ env.registry ∧ e2.id = m ∧ env.avail e2.litellm_provider = true := by
    intro b e he hid
    refine from_avail ?_ hid
    simp only [get_models_by_capability, List.mem_filter] at he
    exact he.1
  unfold select_model_auto at h
  cases ig with
  | true =>
    simp only [if_true] at h
    cases higm : get_image_generation_models env with
    | nil => rw [higm] at h; exact Except.noConfusion h
    | cons m0 rest =>
      rw [higm] at h
      dsimp only at h
      cases hf : List.find? (fun f => ((m0 :: rest).map (fun e => e.id)).contains f)
          FALLBACK_IMAGE_GEN_MODELS with
      | some f =>
        rw [hf] at h
        cases h
        have hpf := List.find?_some hf
        rcases (by simpa using hpf : m = m0.id ∨ ∃ a ∈ rest, a.id = m) with hc | ⟨a, ha, hida⟩
        · exact from_ig (higm.symm ▸ List.mem_cons_self m0 rest) hc.symm
        · exact from_ig (higm.symm ▸ List.mem_cons_of_mem m0 ha) hida
      | none =>
        rw [hf] at h
        cases h
        exact from_ig (higm.symm ▸ List.mem_cons_self m0 rest) rfl
  | false =>
    simp only [if_false, Bool.false_eq_true] at h
    cases hi with
    | true =>
      simp only [if_true] at h
      cases hvm : get_models_by_capability env true with
      | nil => rw [hvm] at h; exact Except.noConfusion h
      | cons m0 rest =>
        rw [hvm] at h
        dsimp only at h
        cases hf : List.find? (fun f => ((m0 :: rest).map (fun e => e.id)).contains f)
            ([env.defaultMultimodalModel, "gemini/gemini-2.5-flash", "openai/gpt-4o-mini"]) with
        | some f =>
          rw [hf] at h
          cases h
          have hpf := List.find?_some hf
          rcases (by simpa using hpf : m = m0.id ∨ ∃ a ∈ rest, a.id = m) with hc | ⟨a, ha, hida⟩
          · exact from_cap (hvm.symm ▸ List.mem_cons_self m0 rest) hc.symm
          · exact from_cap (hvm.symm ▸ List.mem_cons_of_mem m0 ha) hida
        | none =>
          rw [hf] at h
          cases h
          exact from_cap (hvm.symm ▸ List.mem_cons_self m0 rest) rfl
    | false =>
      simp only [if_false, Bool.false_eq_true] at h
      cases hf : List.find?
          (fun f => ((get_available_models env true).map (fun e => e.id)).contains f)
          ([env.defaultTextModel, "gemini/gemini-2.5-flash", "openai/gpt-4o-mini"]) with
      | some f =>
        rw [hf] at h
        cases h
        have hpf := List.find?_some hf
        obtain ⟨e, he, hid⟩ :=
          (by simpa using hpf : ∃ a ∈ get_available_models env true, a.id = m)
        exact from_avail he hid
      | none =>
        rw [hf] at h
        dsimp only at h
        cases htm : get_models_by_capability env false with
        | cons m0 rest =>
          rw [htm] at h
          cases h
          exact from_cap (htm.symm ▸ List.mem_cons_self m0 rest) rfl
        | nil =>
          rw [htm] at h
          dsimp only at h
          cases hai : (get_available_models env true).map (fun e => e.id) with
          | nil => rw [hai] at h; exact Except.noConfusion h
          | cons i rest =>
            rw [hai] at h
            cases h
            obtain ⟨e, he, hid⟩ := mem_map_id (hai.symm ▸ List.mem_cons_self m rest)
            exact from_avail he hid

/-- C5: model selection honors an explicit user choice exactly when it
is valid — a chosen id found in the registry with an available provider
is returned unchanged regardless of input kind or capability flags —
and an invalid/unavailable choice falls through to the automatic
input-kind chain, in which case the caller's selection record reports
`fallback_occurred = true` (the registry is assumed deduplicated, as
`_build_model_registry` guarantees). -/
theorem model_selection_honors_choice (env : MEnv) (c : String) (hi ig : Bool)
    (hnodup : (env.registry.map (fun m => m.id)).Nodup) :
    (∀ meta, c ≠ "" → get_model_metadata env c = some meta →
       env.avail meta.litellm_provider = true →
       select_model_for_input env hi (some c) ig = .ok c)
    ∧ (c ≠ "" →
       (get_model_metadata env c = none ∨
        (∃ meta, get_model_metadata env c = some meta ∧
          env.avail meta.litellm_provider = false)) →
       select_model_for_input env hi (some c) ig = select_model_auto env hi ig
       ∧ ∀ m, select_model_auto env hi ig = .ok m →
           chatFallbackOccurred (some c) m = true) := by
  constructor
  · intro meta hc hmeta havail
    simp [select_model_for_input, hc, hmeta, havail]
  · intro hc hinv
    constructor
    · rcases hinv with hnone | ⟨meta, hmeta, hunavail⟩
      · simp [select_model_for_input, hc, hnone]
      · simp [select_model_for_input, hc, hmeta, hunavail]
    · intro m hm
      obtain ⟨e, he, hid, hav⟩ := select_auto_mem hm
      have hne : m ≠ c := by
        intro heq
        rcases hinv with hnone | ⟨meta, hmeta, hunavail⟩
        · have hno : ∀ x ∈ env.registry, ¬x.id = c := by
            simpa [get_model_metadata, List.find?_eq_none] using hnone
          exact hno e he (by rw [hid, heq])
        · have h1 := List.mem_of_find?_eq_some
            (by simpa [get_model_metadata] using hmeta)
          have h2 : meta.id = c := by
            simpa using List.find?_some
              (by simpa [get_model_metadata] using hmeta : env.registry.find?
                (fun m0 => m0.id == c) = some meta)
          have hem : e = meta := List.inj_on_of_nodup_map hnodup he h1
            (by rw [hid, heq, h2])
          rw [hem] at hav
          rw [hav] at hunavail
          exact Bool.noConfusion hunavail
      have hrfl : chatFallbackOccurred (some c) m
          = if c = "" then false else decide (c ≠ m) := rfl
      rw [hrfl, if_neg hc, decide_eq_true_eq]
      exact fun hh => hne hh.symm

/-- Witness for `model_selection_honors_choice`: in a two-model
environment, a valid text-only choice is honored even for an image
input, and an unknown choice falls back with the fallback flag set. -/
theorem model_selection_honors_choice_witness :
    select_model_for_input
      (⟨[⟨"gemini/gemini-2.5-flash", "gemini-2.5-flash", "gemini", false, false, false⟩,
         ⟨"gpt-4o", "gpt-4o", "openai", true, false, false⟩],
        fun p => p == "gemini" || p == "openai",
        "gemini/gemini-2.5-flash", "gemini/gemini-2.5-flash"⟩)
      true (some ("gemini/gemini-2.5-flash")) false = .ok ("gemini/gemini-2.5-flash")
    ∧ chatFallbackOccurred (some ("nope")) ("gemini/gemini-2.5-flash") = true := by
  constructor
  · exact (model_selection_honors_choice _ ("gemini/gemini-2.5-flash") true false
      (by decide)).1 ⟨"gemini/gemini-2.5-flash", "gemini-2.5-flash", "gemini",
        false, false, false⟩ (by decide) (by decide) (by decide)
  · exact ((model_selection_honors_choice
        (⟨[⟨"gemini/gemini-2.5-flash", "gemini-2.5-flash", "gemini", false, false, false⟩,
           ⟨"gpt-4o", "gpt-4o", "openai", true, false, false⟩],
          fun p => p == "gemini" || p == "openai",
          "gemini/gemini-2.5-flash", "gemini/gemini-2.5-flash"⟩)
        ("nope") false false (by decide)).2 (by decide) (Or.inl (by decide))).2
      ("gemini/gemini-2.5-flash") (by decide)
